import Mathlib

/-!
Verification development for the `smithay-winit` windowing backend.

This file gives a shallow embedding, in Lean 4, of the event-loop / window-state
synchronization engine of the repository:

* `src/window/mod.rs`    — `WaylandWindow` state and its operations,
* `src/window/registry.rs` — `WindowsRegistry` and the pending-action sets,
* `src/state.rs`         — the `configure` handler and `WaylandState::new` defaults,
* `src/event_loop.rs`    — the per-tick drain of `WlEventLoop::run`,
* `src/seat/mod.rs`      — `PointerRegistry` and `remove_capability`,
* `src/seat/pointer.rs`  — button-code mapping and the press/release routing.

External collaborators (the Wayland connection, the sctk-adwaita decoration
frame, calloop, accesskit) are modeled through the decision outputs that the
engine consumes: protocol calls are I/O with no effect on the modeled state and
are recorded here as comments at the corresponding places.  Machine integers
(`u32`, `i32`, `u16` bitflags) are modeled as `Nat`/`Int`; none of the modeled
operations can overflow on the values the claims are about.
-/

namespace SmithayWinit

/-- Window identity (`WindowId` wrapping a protocol `ObjectId`): an opaque
stable token, modeled as a natural number.  Equality is structural, as in the
source (`#[derive(PartialEq, Eq, Hash)]`). -/
abbrev WindowId := Nat

/-- Logical size (`dpi::LogicalSize<u32>`). -/
structure LogicalSize where
  width : Nat
  height : Nat
deriving DecidableEq

/-- Componentwise order on sizes; `a.sizeLe b` says every dimension of `a` is at
most the corresponding dimension of `b`. -/
def LogicalSize.sizeLe (a b : LogicalSize) : Prop :=
  a.width ≤ b.width ∧ a.height ≤ b.height

instance (a b : LogicalSize) : Decidable (a.sizeLe b) := by
  unfold LogicalSize.sizeLe
  infer_instance

/-- Lexicographic strict order on sizes (width first, then height): this is the
order of the `Ord` instance that the `dpi` crate derives for `LogicalSize`
(`#[derive(..., PartialOrd, Ord)]` with fields `width`, `height`). -/
def LogicalSize.lexLt (a b : LogicalSize) : Bool :=
  a.width < b.width || (a.width = b.width && a.height < b.height)

/-- Rust `Ord::max` on `dpi::LogicalSize`: `if other < self { self } else { other }`. -/
def LogicalSize.lexMax (a b : LogicalSize) : LogicalSize :=
  if LogicalSize.lexLt b a then a else b

/-! ### The `csd_frame::WindowState` bitflags

`WindowState` is a `u16` bitflags struct; we model its value as a `Nat`
bitmask with the bit constants of the `csd-frame` crate. -/

/-- Bit `MAXIMIZED` of `csd_frame::WindowState`. -/
def MAXIMIZED : Nat := 0x001

/-- Bit `FULLSCREEN` of `csd_frame::WindowState`. -/
def FULLSCREEN : Nat := 0x002

/-- Bit `RESIZING` of `csd_frame::WindowState`. -/
def RESIZING : Nat := 0x004

/-- Bit `ACTIVATED` of `csd_frame::WindowState`. -/
def ACTIVATED : Nat := 0x008

/-- Bit `TILED_LEFT` of `csd_frame::WindowState`. -/
def TILED_LEFT : Nat := 0x010

/-- Bit `TILED_RIGHT` of `csd_frame::WindowState`. -/
def TILED_RIGHT : Nat := 0x020

/-- Bit `TILED_TOP` of `csd_frame::WindowState`. -/
def TILED_TOP : Nat := 0x040

/-- Bit `TILED_BOTTOM` of `csd_frame::WindowState`. -/
def TILED_BOTTOM : Nat := 0x080

/-- Bit `SUSPENDED` of `csd_frame::WindowState`. -/
def SUSPENDED : Nat := 0x100

/-- Mask `TILED` of `csd_frame::WindowState` (union of the four tiling bits). -/
def TILED : Nat := TILED_LEFT ||| TILED_RIGHT ||| TILED_TOP ||| TILED_BOTTOM

/-- Rust `bitflags` `difference` (`a & !b`): the bits of `a` that are not in
`b`.  Since `a &&& b` is contained in the bits of `a`, this equals
`a ^^^ (a &&& b)`. -/
def bitflagsDiff (a b : Nat) : Nat := a ^^^ (a &&& b)

/-! ### The decoration frame

The decoration frame (`sctk_adwaita::AdwaitaFrame`) is an external component;
the spec treats it as a collaborator consumed only through its decision
outputs.  We model the data the engine reads back from it: whether it is
hidden/dirty, a border thickness in each dimension, and the mirror of the
state/capability/title values the engine pushes into it. -/

structure Frame where
  /-- Total horizontal border thickness the frame reports. -/
  borderW : Nat
  /-- Total vertical border thickness the frame reports. -/
  borderH : Nat
  hidden : Bool
  dirty : Bool
  /-- Mirror of the last `update_state` call. -/
  state : Nat
  /-- Mirror of the last `update_wm_capabilities` call. -/
  capabilities : Nat
  /-- Mirror of the last `set_title` call (title as a UTF-8 byte list). -/
  title : List Nat
  /-- Mirror of the last `set_scaling_factor` call. -/
  scale : Int
deriving DecidableEq

/-- Model of `DecorationsFrame::subtract_borders`: remove the border thickness
from a compositor-suggested `NonZeroU32` size, returning `none` when nothing
positive remains.  A hidden frame occupies no space. -/
def Frame.subtract_borders (f : Frame) (width height : Nat) : Option Nat × Option Nat :=
  let bw := if f.hidden then 0 else f.borderW
  let bh := if f.hidden then 0 else f.borderH
  (if bw < width then some (width - bw) else none,
   if bh < height then some (height - bh) else none)

/-- Model of `DecorationsFrame::add_borders`. -/
def Frame.add_borders (f : Frame) (width height : Nat) : Nat × Nat :=
  let bw := if f.hidden then 0 else f.borderW
  let bh := if f.hidden then 0 else f.borderH
  (width + bw, height + bh)

/-! ### Window attributes and window state (`src/window/attributes.rs`, `src/window/mod.rs`) -/

/-- `WindowAttributes`: the creation-attributes record.  `app_id`, `app_name`
and the strings are byte lists; `dpi::Size` fields are taken already converted
to logical units (the source converts with `to_logical(1.0)`, the identity on
integral sizes). -/
structure WindowAttributes where
  title : List Nat
  app_id : List Nat
  visible : Bool
  surface_size : Option LogicalSize
  min_surface_size : Option LogicalSize
  max_surface_size : Option LogicalSize
  resizable : Bool
  fullscreen : Bool
  maximized : Bool
  hide_titlebar : Bool
  decorations : Bool
  light_theme : Option Bool
  transparent : Bool
deriving DecidableEq

/-- Byte list of the string `"Wayland window"`. -/
def defaultTitleBytes : List Nat :=
  [87, 97, 121, 108, 97, 110, 100, 32, 119, 105, 110, 100, 111, 119]

/-- Byte list of the string `"wayland.window"`. -/
def defaultAppIdBytes : List Nat :=
  [119, 97, 121, 108, 97, 110, 100, 46, 119, 105, 110, 100, 111, 119]

/-- `WindowAttributes::default()` (`src/window/attributes.rs`); `resizable`
uses `Default::default()`, i.e. `false`. -/
def defaultWindowAttributes : WindowAttributes :=
  { title := defaultTitleBytes
    app_id := defaultAppIdBytes
    visible := true
    surface_size := none
    min_surface_size := none
    max_surface_size := none
    resizable := false
    fullscreen := false
    maximized := false
    hide_titlebar := false
    decorations := true
    light_theme := none
    transparent := false }

/-- `DEFAULT_WINDOW_SIZE` (`src/window/mod.rs`). -/
def DEFAULT_WINDOW_SIZE : LogicalSize := { width := 256, height := 256 }

/-- `DEFAULT_SCALE_FACTOR` (`src/window/mod.rs`). -/
def DEFAULT_SCALE_FACTOR : Int := 1

/-- `MIN_WINDOW_SIZE` (`src/window/mod.rs`): the fixed minimum surface size
floor. -/
def MIN_WINDOW_SIZE : LogicalSize := { width := 2, height := 1 }

/-- `WaylandWindow` (`src/window/mod.rs`), restricted to the fields the claims
are about.  Live protocol handles (`window`, `output`, `region`, the pointer
weak references, the accesskit adapter, the event sender, the cursor fields)
are external I/O objects and are not part of the modeled state; the viewport is
kept as a presence flag because `resize` branches on it. -/
structure WaylandWindow where
  id : WindowId
  title : List Nat
  visible : Bool
  resizable : Bool
  hide_titlebar : Bool
  decorations : Bool
  transparent : Bool
  light_theme : Option Bool
  /-- The `csd_frame::WindowState` bitset. -/
  state : Nat
  window_frame : Option Frame
  /-- Presence of the `WpViewport` for fractional scaling. -/
  viewport : Bool
  size : LogicalSize
  min_surface_size : LogicalSize
  max_surface_size : Option LogicalSize
  stateless_size : LogicalSize
  scale_factor : Int
  decorate : Bool
  stateless : Bool
deriving DecidableEq

/-- `WaylandWindow::set_min_surface_size`: clamp to the fixed floor, then
re-expand by the decoration border thickness when a frame exists.  The
`window.set_min_size` protocol call is external I/O. -/
def WaylandWindow.set_min_surface_size (w : WaylandWindow) (size : Option LogicalSize) :
    WaylandWindow :=
  let s0 := size.getD MIN_WINDOW_SIZE
  let s1 : LogicalSize :=
    { width := max s0.width MIN_WINDOW_SIZE.width
      height := max s0.height MIN_WINDOW_SIZE.height }
  let s2 : LogicalSize :=
    match w.window_frame with
    | some f =>
      let p := f.add_borders s1.width s1.height
      { width := p.1, height := p.2 }
    | none => s1
  { w with min_surface_size := s2 }

/-- `WaylandWindow::set_max_surface_size`.  The `window.set_max_size` protocol
call is external I/O. -/
def WaylandWindow.set_max_surface_size (w : WaylandWindow) (size : Option LogicalSize) :
    WaylandWindow :=
  let s :=
    size.map fun s0 =>
      match w.window_frame with
      | some f =>
        let p := f.add_borders s0.width s0.height
        ({ width := p.1, height := p.2 } : LogicalSize)
      | none => s0
  { w with max_surface_size := s }

/-- `WaylandWindow::resize` (`src/window/mod.rs` lines 496-538): store the new
surface size and, while stateless, the stateless-size memory.  The remaining
effects — resizing the visible decoration frame, reloading the transparency
hint, re-asserting the xdg window geometry, and updating the viewport
destination — are protocol/frame I/O with no effect on the modeled fields. -/
def WaylandWindow.resize (w : WaylandWindow) (surface_size : LogicalSize) : WaylandWindow :=
  let w1 := { w with size := surface_size }
  if w1.stateless then { w1 with stateless_size := surface_size } else w1

/-- `WaylandWindow::new` (`src/window/mod.rs` lines 132-201), restricted to the
modeled fields.  The protocol calls (`set_app_id`, `set_maximized`,
`set_fullscreen`, `request_decoration_mode`, `commit`) are external I/O.  The
final size is `attr.surface_size.unwrap_or(DEFAULT_WINDOW_SIZE).max(min)`,
where `max` is the derived (lexicographic) `Ord::max` of `dpi::LogicalSize`. -/
def WaylandWindow.new (id : WindowId) (attr : WindowAttributes) (viewport : Bool) :
    WaylandWindow :=
  let w : WaylandWindow :=
    { id := id
      title := attr.title
      visible := attr.visible
      resizable := attr.resizable
      hide_titlebar := attr.hide_titlebar
      decorations := attr.decorations
      transparent := false
      light_theme := attr.light_theme
      state := 0
      window_frame := none
      viewport := viewport
      size := DEFAULT_WINDOW_SIZE
      min_surface_size := MIN_WINDOW_SIZE
      max_surface_size := none
      stateless_size := DEFAULT_WINDOW_SIZE
      scale_factor := DEFAULT_SCALE_FACTOR
      decorate := true
      stateless := false }
  let w := w.set_min_surface_size attr.min_surface_size
  let w := w.set_max_surface_size attr.max_surface_size
  { w with
      size := LogicalSize.lexMax (attr.surface_size.getD DEFAULT_WINDOW_SIZE) w.min_surface_size }

/-! ### Title truncation (`WaylandWindow::set_title`, `src/window/mod.rs` lines 292-310) -/

/-- Rust `str::is_char_boundary` on a UTF-8 byte list: index 0 is always a
boundary; past-the-end indices are a boundary exactly at the length; otherwise
the byte at the index must not be a UTF-8 continuation byte
(`(b as i8) >= -0x40`, i.e. `b < 0x80 ∨ 0xC0 ≤ b`). -/
def is_char_boundary (s : List Nat) (index : Nat) : Bool :=
  if index = 0 then true
  else
    match s.get? index with
    | none => index == s.length
    | some b => decide (b < 0x80) || decide (0xC0 ≤ b)

/-- The `while !title.is_char_boundary(new_len) { new_len -= 1 }` loop of
`set_title`, as a structural recursion on the candidate length. -/
def truncateLen (s : List Nat) : Nat → Nat
  | 0 => 0
  | n + 1 => if is_char_boundary s (n + 1) then n + 1 else truncateLen s n

/-- The truncation performed by `WaylandWindow::set_title`: titles longer than
1024 bytes are cut back to the nearest character boundary at or below 1024. -/
def titleTruncate (title : List Nat) : List Nat :=
  if 1024 < title.length then title.take (truncateLen title 1024) else title

/-- `WaylandWindow::set_title`: truncate, push the new title into the
decoration frame when present (`frame.set_title`), and store it.  The
`window.set_title` protocol call transmitting the same truncated bytes is
external I/O. -/
def WaylandWindow.set_title (w : WaylandWindow) (title : List Nat) : WaylandWindow :=
  let t := titleTruncate title
  { w with
      title := t
      window_frame := w.window_frame.map fun f => { f with title := t } }

/-! ### The configure handler (`WindowHandler::configure`, `src/state.rs` lines 404-503) -/

/-- `smithay_client_toolkit ... window::DecorationMode`. -/
inductive DecorationMode where
  | Client
  | Server
deriving DecidableEq

/-- `WindowConfigure`, restricted to the fields the handler reads: the
compositor-suggested size (`Option<NonZeroU32>` per dimension), the suggested
bounds, the decoration mode, the `WindowState` bitset, and the wm
capabilities. -/
structure WindowConfigure where
  new_size : Option Nat × Option Nat
  suggested_bounds : Option (Nat × Nat)
  decoration_mode : DecorationMode
  state : Nat
  capabilities : Nat
deriving DecidableEq

/-- `is_stateless` (`src/state.rs` lines 313-316): no maximized, fullscreen or
tiled bit is set. -/
def is_stateless (c : WindowConfigure) : Bool :=
  !(decide (c.state &&& MAXIMIZED ≠ 0) || decide (c.state &&& FULLSCREEN ≠ 0)
    || decide (c.state &&& TILED ≠ 0))

/-- Decoration phase of `configure` (`src/state.rs` lines 415-443).  The
external constructor `AdwaitaFrame::new` is modeled by its outcome `frameNew`
(`some f` on success, `none` on failure).  Returns the updated window, the
updated `csd_fails` flag, and whether construction was attempted.  On success
the handler pushes title, scaling factor and hidden-ness into the new frame; on
failure it logs and sets `csd_fails = true`; a server-mode configure drops any
existing frame. -/
def applyDecorations (subcomp csdFails : Bool) (frameNew : Option Frame)
    (w : WaylandWindow) (c : WindowConfigure) : WaylandWindow × Bool × Bool :=
  if c.decoration_mode = DecorationMode.Client ∧ w.window_frame = none ∧ subcomp ∧ csdFails then
    match frameNew with
    | some f =>
      let f2 := { f with title := w.title, scale := w.scale_factor, hidden := !w.decorate }
      ({ w with window_frame := some f2 }, csdFails, true)
    | none => (w, true, true)
  else if c.decoration_mode = DecorationMode.Server then
    ({ w with window_frame := none }, csdFails, false)
  else (w, csdFails, false)

/-- The window after the phases of `configure` that precede the size
computation: the decoration phase, the `window.stateless` recomputation, and
the `frame.update_state` / `frame.update_wm_capabilities` calls. -/
def stagedWindow (subcomp csdFails : Bool) (frameNew : Option Frame)
    (w : WaylandWindow) (c : WindowConfigure) : WaylandWindow :=
  let w1 := (applyDecorations subcomp csdFails frameNew w c).1
  let w1 := { w1 with stateless := is_stateless c }
  { w1 with window_frame :=
      w1.window_frame.map fun f => { f with state := c.state, capabilities := c.capabilities } }

/-- Candidate size and `constrain` flag (`src/state.rs` lines 447-468): with a
frame, a fully-specified suggestion has the borders subtracted (each dimension
falling back to 1 when unset) and is not constrained; a fully-unset suggestion
reuses the stateless size while stateless; anything else reuses the current
size.  Without a frame the suggestion is used directly, and any partially-unset
suggestion reuses the stateless/current size. -/
def candidateSize (w : WaylandWindow) (c : WindowConfigure) : LogicalSize × Bool :=
  match w.window_frame with
  | some f =>
    match c.new_size with
    | (some width, some height) =>
      let p := f.subtract_borders width height
      ({ width := p.1.getD 1, height := p.2.getD 1 }, false)
    | (none, none) => if w.stateless then (w.stateless_size, true) else (w.size, true)
    | _ => (w.size, true)
  | none =>
    match c.new_size with
    | (some width, some height) => ({ width := width, height := height }, false)
    | _ => if w.stateless then (w.stateless_size, true) else (w.size, true)

/-- `WaylandWindow::surface_size_bounds` (`src/window/mod.rs` lines 472-493):
the suggested bounds with zero components dropped (`NonZeroU32::new`), minus
the decoration borders when a frame exists (`Option::and` keeps a dimension
only when the original bound was present). -/
def surface_size_bounds (w : WaylandWindow) (c : WindowConfigure) : Option Nat × Option Nat :=
  let cb : Option Nat × Option Nat :=
    match c.suggested_bounds with
    | some (width, height) =>
      (if width = 0 then none else some width, if height = 0 then none else some height)
    | none => (none, none)
  match w.window_frame with
  | some f =>
    let p := f.subtract_borders (cb.1.getD 1) (cb.2.getD 1)
    ((match cb.1 with | some _ => p.1 | none => none),
     (match cb.2 with | some _ => p.2 | none => none))
  | none => cb

/-- The size `configure` computes for the window (`src/state.rs` lines 447-481):
the candidate size, clamped to the configure bounds only when the compositor
left the size to the client (`constrain`). -/
def computedNewSize (w : WaylandWindow) (c : WindowConfigure) : LogicalSize :=
  let p := candidateSize w c
  if p.2 then
    let b := surface_size_bounds w c
    { width := match b.1 with | some bw => min p.1.width bw | none => p.1.width
      height := match b.2 with | some bh => min p.1.height bh | none => p.1.height }
  else p.1

/-- Result of `configure` on one registered window: the updated window, the
updated `csd_fails` flag, whether a resize was triggered, and whether
decoration-frame construction was attempted. -/
structure ConfigureOutcome where
  window : WaylandWindow
  csd_fails : Bool
  resize : Bool
  attempted : Bool
deriving DecidableEq

/-- The per-window body of `WindowHandler::configure` (`src/state.rs` lines
414-498): decoration phase, stateless recomputation, frame state update, size
computation, the resize decision
`state_change_requires_resize || new_size != window.size`, the state-bit store,
and the conditional `window.resize(new_size)`. -/
def configureWindow (subcomp csdFails : Bool) (frameNew : Option Frame)
    (w : WaylandWindow) (c : WindowConfigure) : ConfigureOutcome :=
  let dec := applyDecorations subcomp csdFails frameNew w c
  let w1 := stagedWindow subcomp csdFails frameNew w c
  let new_size := computedNewSize w1 c
  let state_change_requires_resize : Bool :=
    decide (bitflagsDiff (w1.state ^^^ c.state) (ACTIVATED ||| SUSPENDED) ≠ 0)
  let w2 := { w1 with state := c.state }
  let resizeB : Bool := state_change_requires_resize || decide (new_size ≠ w1.size)
  let w3 := if resizeB then w2.resize new_size else w2
  { window := w3, csd_fails := dec.2.1, resize := resizeB, attempted := dec.2.2 }

/-- Association-list lookup with `HashMap` semantics (keys unique; `get`). -/
def lookupKey {α : Type} (l : List (Nat × α)) (k : Nat) : Option α :=
  (l.find? fun p => p.1 == k).map fun p => p.2

/-- Association-list update of an existing key. -/
def updateKey {α : Type} (l : List (Nat × α)) (k : Nat) (v : α) : List (Nat × α) :=
  l.map fun p => if p.1 == k then (k, v) else p

/-- `IndexSet::insert`: append, deduplicating (insertion order preserved,
duplicates within a tick collapse to one). -/
def setInsert (s : List WindowId) (x : WindowId) : List WindowId :=
  if x ∈ s then s else s ++ [x]

/-- The slice of `WaylandState` read and written by `WindowHandler::configure`:
the windows map, the subcompositor presence, the `csd_fails` flag, and the
resize/redraw pending sets. -/
structure HandlerState where
  windows : List (WindowId × WaylandWindow)
  subcompositor : Bool
  csd_fails : Bool
  resize_request : List WindowId
  redraw_request : List WindowId
deriving DecidableEq

/-- Initial value of the `csd_fails` flag, as set by `WaylandState::new`
(`src/state.rs` line 188). -/
def initialCsdFails : Bool := true

/-- Whether `configure` triggers a resize for identity `id` (false when the
window is not registered, since `resize` is initialized to `false` and only
written inside the `if let Some(window)` block). -/
def configResizeTriggered (st : HandlerState) (id : WindowId) (c : WindowConfigure)
    (frameNew : Option Frame) : Bool :=
  match lookupKey st.windows id with
  | some w => (configureWindow st.subcompositor st.csd_fails frameNew w c).resize
  | none => false

/-- Whether `configure` attempts decoration-frame construction for `id`. -/
def configAttempted (st : HandlerState) (id : WindowId) (c : WindowConfigure)
    (frameNew : Option Frame) : Bool :=
  match lookupKey st.windows id with
  | some w => (configureWindow st.subcompositor st.csd_fails frameNew w c).attempted
  | none => false

/-- `WindowHandler::configure` at the state level (`src/state.rs` lines
404-503): run the per-window body when the window is registered, then insert
into the resize pending set exactly when a resize was triggered, and into the
redraw pending set unconditionally. -/
def configureHandler (st : HandlerState) (id : WindowId) (c : WindowConfigure)
    (frameNew : Option Frame) : HandlerState :=
  match lookupKey st.windows id with
  | some w =>
    let o := configureWindow st.subcompositor st.csd_fails frameNew w c
    { st with
        windows := updateKey st.windows id o.window
        csd_fails := o.csd_fails
        resize_request := if o.resize then setInsert st.resize_request id else st.resize_request
        redraw_request := setInsert st.redraw_request id }
  | none => { st with redraw_request := setInsert st.redraw_request id }

/-! ### The per-tick drain of `WlEventLoop::run` (`src/event_loop.rs` lines 197-351)

The drain logic inspects only which identities are present in the registry
maps and in the pending sets; the window payloads it reads (scale factor,
size) go into callback arguments whose numeric values involve `f64` rounding
(`logical_to_physical_rounded`) and are outside the modeled state.  The
windows map is therefore modeled by its key set, the screenlocks map by its
keys paired with the `ScreenLock.size` option (read by the resize branch), and
callbacks carry the identity they are delivered for. -/

/-- Tags for the Rust `panic!`/`unwrap` sites reachable from the drain. -/
inductive PanicKind where
  /-- `WindowsRegistry::remove_window` on an identity absent from the map
  (`src/window/registry.rs` line 35). -/
  | removeWindowMissing
  /-- `screenlock.size.unwrap()` in the resize drain (`src/event_loop.rs`
  line 261). -/
  | screenlockSizeMissing
  /-- `.insert(id, (None, surface)).unwrap()` when re-queueing a sizeless lock
  surface (`src/event_loop.rs` line 226). -/
  | screenlockReinsert
deriving DecidableEq

/-- One entry of the internal `Events` queue (`src/event_loop.rs` lines
124-130), with external payloads (key codes, pointer data) elided. -/
inductive InternalEvent where
  | redrawRequest (id : WindowId)
  | keyboard
  | pointerEv (id : WindowId)
  | focus (id : WindowId) (focused : Bool)
deriving DecidableEq

/-- One entry of the `AccesskitEvents` queue (`src/event_loop.rs` lines
31-36). -/
inductive AccesskitEvent where
  | activate (id : WindowId)
  | deactivate (id : WindowId)
  | action (id : WindowId)
deriving DecidableEq

/-- One invocation of an `ApplicationHandler` callback during a tick, in
delivery order. -/
inductive Callback where
  | createWindow (id : WindowId)
  | createScreenlock (id : WindowId)
  | userEvent
  | rescaleCb (id : WindowId)
  | resizeCb (id : WindowId)
  | userSignals
  | accesskitActivate (id : WindowId)
  | accesskitDeactivate (id : WindowId)
  | accesskitAction (id : WindowId)
  | keyboardCb (id : WindowId)
  | pointerCb (id : WindowId)
  | focusCb (id : WindowId) (focused : Bool)
  | drawCb (id : WindowId)
  | closeCb (id : WindowId)
deriving DecidableEq

/-- The state read and written by one tick of `WlEventLoop::run`: the registry
key sets, the five pending collections, the two internal queues, the queued
user events, and the keyboard focus. -/
structure TickState where
  windows : List WindowId
  screenlocks : List (WindowId × Option LogicalSize)
  new_windows : List WindowId
  new_screenlock : List (WindowId × Option LogicalSize)
  rescale_request : List WindowId
  resize_request : List WindowId
  redraw_request : List WindowId
  close_request : List WindowId
  user_events : Nat
  accesskit_events : List AccesskitEvent
  events : List InternalEvent
  keyboard_focus : Option WindowId
deriving DecidableEq

/-- Delivery of the taken `new_screenlock` map (`src/event_loop.rs` lines
217-229): a sized entry is delivered; a sizeless entry is re-inserted into the
freshly emptied live map, and the `.unwrap()` on the `None` that
`IndexMap::insert` returns for a fresh key panics. -/
def drainNewScreenlock : List (WindowId × Option LogicalSize) →
    Except PanicKind (List Callback)
  | [] => Except.ok []
  | (id, some _) :: rest =>
    match drainNewScreenlock rest with
    | Except.ok tr => Except.ok (Callback.createScreenlock id :: tr)
    | Except.error e => Except.error e
  | (_, none) :: _ => Except.error PanicKind.screenlockReinsert

/-- The rescale drain (`src/event_loop.rs` lines 237-245): for each pending
identity still in the windows map, invoke `rescale_handle` and fold the
identity into the resize set. -/
def drainRescale (ws : List WindowId) : List WindowId → List WindowId →
    List Callback × List WindowId
  | [], acc => ([], acc)
  | id :: rest, acc =>
    if id ∈ ws then
      let p := drainRescale ws rest (setInsert acc id)
      (Callback.rescaleCb id :: p.1, p.2)
    else drainRescale ws rest acc

/-- The resize drain (`src/event_loop.rs` lines 246-265): windows-map hits get
`resize_handle` and are folded into the redraw set; otherwise a screenlocks-map
hit does the same but unwraps `screenlock.size`, panicking when it is `None`;
identities in neither map are skipped. -/
def drainResize (ws : List WindowId) (locks : List (WindowId × Option LogicalSize)) :
    List WindowId → List WindowId → Except PanicKind (List Callback × List WindowId)
  | [], acc => Except.ok ([], acc)
  | id :: rest, acc =>
    if id ∈ ws then
      match drainResize ws locks rest (setInsert acc id) with
      | Except.ok p => Except.ok (Callback.resizeCb id :: p.1, p.2)
      | Except.error e => Except.error e
    else
      match lookupKey locks id with
      | some (some _) =>
        match drainResize ws locks rest (setInsert acc id) with
        | Except.ok p => Except.ok (Callback.resizeCb id :: p.1, p.2)
        | Except.error e => Except.error e
      | some none => Except.error PanicKind.screenlockSizeMissing
      | none => drainResize ws locks rest acc

/-- The accesskit drain (`src/event_loop.rs` lines 269-293): events whose
identity is still in the windows map dispatch the matching callback; the rest
are dropped. -/
def drainAccesskit (ws : List WindowId) : List AccesskitEvent → List Callback
  | [] => []
  | ev :: rest =>
    let id := match ev with
      | AccesskitEvent.activate i => i
      | AccesskitEvent.deactivate i => i
      | AccesskitEvent.action i => i
    if id ∈ ws then
      (match ev with
        | AccesskitEvent.activate _ => Callback.accesskitActivate id
        | AccesskitEvent.deactivate _ => Callback.accesskitDeactivate id
        | AccesskitEvent.action _ => Callback.accesskitAction id) :: drainAccesskit ws rest
    else drainAccesskit ws rest

/-- The internal-events drain (`src/event_loop.rs` lines 294-315).  A
`RedrawRequest` inserts into the live (already taken, hence next-tick) redraw
set; a keyboard event goes to the focused window, if any, which is also marked
for redraw in the live set; pointer and focus events are routed by embedded
identity.  Returns the emitted callbacks and the live redraw set. -/
def drainEvents (kf : Option WindowId) : List InternalEvent → List WindowId →
    List Callback × List WindowId
  | [], acc => ([], acc)
  | InternalEvent.redrawRequest id :: rest, acc => drainEvents kf rest (setInsert acc id)
  | InternalEvent.keyboard :: rest, acc =>
    match kf with
    | some id =>
      let p := drainEvents kf rest (setInsert acc id)
      (Callback.keyboardCb id :: p.1, p.2)
    | none => drainEvents kf rest acc
  | InternalEvent.pointerEv id :: rest, acc =>
    let p := drainEvents kf rest acc
    (Callback.pointerCb id :: p.1, p.2)
  | InternalEvent.focus id f :: rest, acc =>
    let p := drainEvents kf rest acc
    (Callback.focusCb id f :: p.1, p.2)

/-- The redraw drain (`src/event_loop.rs` lines 316-322): identities still in
the windows map get `refresh_frame` (frame-internal I/O) and `draw_handle`. -/
def drainRedraw (ws : List WindowId) : List WindowId → List Callback
  | [] => []
  | id :: rest =>
    if id ∈ ws then Callback.drawCb id :: drainRedraw ws rest
    else drainRedraw ws rest

/-- The close drain (`src/event_loop.rs` lines 323-326): each pending identity
is removed via `WindowsRegistry::remove_window` — which panics when the
identity is not in the windows map — and then `close_handle` is invoked. -/
def drainClose : List WindowId → List WindowId →
    Except PanicKind (List Callback × List WindowId)
  | ws, [] => Except.ok ([], ws)
  | ws, id :: rest =>
    if id ∈ ws then
      match drainClose (ws.erase id) rest with
      | Except.ok p => Except.ok (Callback.closeCb id :: p.1, p.2)
      | Except.error e => Except.error e
    else Except.error PanicKind.removeWindowMissing

/-- One `Ok(_)` iteration of `WlEventLoop::run` (`src/event_loop.rs` lines
203-327): take the five pending collections, deliver new windows and lock
surfaces, deliver user events, drain rescale (folding into resize), drain
resize (folding into redraw), invoke `user_signals_handle` (an application
callback, modeled as a marker), drain accesskit and internal events, drain
redraw, and drain close last.  Returns the callback trace and the state for
the next tick, or the panic the Rust code would abort with. -/
def tick (st : TickState) : Except PanicKind (List Callback × TickState) :=
  match drainNewScreenlock st.new_screenlock with
  | Except.error e => Except.error e
  | Except.ok trLock =>
    let trNew := st.new_windows.map Callback.createWindow
    let trUser := List.replicate st.user_events Callback.userEvent
    let pRescale := drainRescale st.windows st.rescale_request st.resize_request
    match drainResize st.windows st.screenlocks pRescale.2 st.redraw_request with
    | Except.error e => Except.error e
    | Except.ok pResize =>
      let trAcc := drainAccesskit st.windows st.accesskit_events
      let pEvents := drainEvents st.keyboard_focus st.events []
      let trRedraw := drainRedraw st.windows pResize.2
      match drainClose st.windows st.close_request with
      | Except.error e => Except.error e
      | Except.ok pClose =>
        Except.ok
          (trNew ++ trLock ++ trUser ++ pRescale.1 ++ pResize.1
            ++ Callback.userSignals :: (trAcc ++ pEvents.1 ++ trRedraw ++ pClose.1),
           { st with
              windows := pClose.2
              new_windows := []
              new_screenlock := []
              rescale_request := []
              resize_request := []
              redraw_request := pEvents.2
              close_request := []
              user_events := 0
              accesskit_events := []
              events := [] })

/-- `WindowsRegistry::is_empty` (`src/window/registry.rs` lines 90-92): no
windows and no lock surfaces remain. -/
def registryIsEmpty (st : TickState) : Bool :=
  st.windows.isEmpty && st.screenlocks.isEmpty

/-- Result of `WlEventLoop::run` on a finite schedule of dispatch outcomes:
`running` means the schedule was exhausted with the loop still live. -/
inductive RunResult where
  | success
  | dispatchError
  | panicked
  | running
deriving DecidableEq

/-- `WlEventLoop::run` (`src/event_loop.rs` lines 197-351) over a schedule of
dispatch outcomes.  Each schedule entry is one `event_loop.dispatch` call:
`none` models a transport error (logged, then
`return Err(...)`); `some (st, flag)` supplies the post-dispatch state — the
dispatch callbacks and the application may mutate it arbitrarily between
ticks, so it is an input — together with the value of the `LOOP_RUNNING`
atomic read at the tick boundary.  After a successful tick the loop stops (and
`run` returns `Ok`) exactly when the registry is empty or the flag was
cleared; a tick panic aborts.  The `session_lock` unlock branch is dead code
in this revision (`session_lock` is never `Some`; `SessionLockHandler::locked`
is `todo!()`), so it does not appear. -/
def runLoop : List (Option (TickState × Bool)) → RunResult
  | [] => RunResult.running
  | none :: _ => RunResult.dispatchError
  | some (st, flag) :: rest =>
    match tick st with
    | Except.error _ => RunResult.panicked
    | Except.ok p =>
      if registryIsEmpty p.2 || !flag then RunResult.success else runLoop rest

/-! ### The pointer registry (`src/seat/mod.rs`) -/

/-- `PointerKind` (`src/seat/mod.rs` lines 53-57); the wrapped device handles
are external. -/
inductive PointerKind where
  | mouse
  | touch
deriving DecidableEq

/-- `ui_events::pointer::PointerInfo`, restricted to the identifying field. -/
structure PointerInfo where
  pointer_id : Nat
deriving DecidableEq

/-- `PointerRegistry` (`src/seat/mod.rs` lines 105-109): seat → (pointer id,
device) and pointer → (seat id, info), both `HashMap`s, modeled as
unique-keyed association lists. -/
structure PointerRegistry where
  by_seat : List (Nat × (Nat × PointerKind))
  by_pointer : List (Nat × (Nat × PointerInfo))
deriving DecidableEq

/-- `HashMap::remove`: drop the key. -/
def eraseKey {α : Type} (l : List (Nat × α)) (k : Nat) : List (Nat × α) :=
  l.filter fun p => !(p.1 == k)

/-- `PointerRegistry::remove` (`src/seat/mod.rs` lines 124-139): remove the
seat entry; when one was present, remove the pointer entry for its id
(discarding the value), release the underlying device (external I/O), and
return the result of looking the id up in `by_pointer` — after its removal. -/
def PointerRegistry.remove (r : PointerRegistry) (seat_id : Nat) :
    Option PointerInfo × PointerRegistry :=
  match lookupKey r.by_seat seat_id with
  | some p =>
    let by_seat2 := eraseKey r.by_seat seat_id
    let by_pointer2 := eraseKey r.by_pointer p.1
    ((lookupKey by_pointer2 p.1).map fun q => q.2,
      { by_seat := by_seat2, by_pointer := by_pointer2 })
  | none => (none, r)

/-- The `Capability::Pointer | Capability::Touch` arm of
`SeatHandler::remove_capability` (`src/seat/mod.rs` lines 236-249): when the
registry removal returns an info record, send one
`Events::Pointer(id, PointerEvent::Cancel(info))` per entry of the windows
map; otherwise only warn.  Returns the updated registry and the list of
(window, info) cancel events sent. -/
def remove_capability (reg : PointerRegistry) (windows : List WindowId) (seat_id : Nat) :
    PointerRegistry × List (WindowId × PointerInfo) :=
  match reg.remove seat_id with
  | (some info, reg2) => (reg2, windows.map fun id => (id, info))
  | (none, reg2) => (reg2, [])

/-! ### Button-code mapping and press routing (`src/seat/pointer.rs`) -/

/-- `ui_events::pointer::PointerButton`: the closed, fixed button
enumeration. -/
inductive PointerButton where
  | Primary
  | Secondary
  | Auxiliary
  | X1
  | X2
  | B7
  | B8
  | B9
  | B10
  | B11
  | B12
  | B13
  | B14
  | B15
  | B16
  | B17
  | B18
  | B19
  | B20
  | B21
  | B22
  | B23
  | B24
  | B25
  | B26
  | B27
  | B28
  | B29
  | B30
  | B31
  | B32
  | PenEraser
deriving DecidableEq

/-- `try_from_button` (`src/seat/pointer.rs` lines 183-223): the raw evdev
button code mapped into the closed enumeration; codes outside the listed set
map to `none`. -/
def try_from_button (code : Nat) : Option PointerButton :=
  match code with
  | 0x110 => some PointerButton.Primary
  | 0x111 => some PointerButton.Secondary
  | 0x112 => some PointerButton.Auxiliary
  | 0x113 => some PointerButton.X1
  | 0x114 => some PointerButton.X2
  | 0x115 => some PointerButton.B7
  | 0x116 => some PointerButton.B8
  | 0x117 => some PointerButton.B9
  | 0x14b => some PointerButton.PenEraser
  | 0x118 => some PointerButton.B10
  | 0x119 => some PointerButton.B11
  | 0x11a => some PointerButton.B12
  | 0x11b => some PointerButton.B13
  | 0x11c => some PointerButton.B14
  | 0x11d => some PointerButton.B15
  | 0x11e => some PointerButton.B16
  | 0x11f => some PointerButton.B17
  | 0x120 => some PointerButton.B18
  | 0x121 => some PointerButton.B19
  | 0x122 => some PointerButton.B20
  | 0x123 => some PointerButton.B21
  | 0x124 => some PointerButton.B22
  | 0x125 => some PointerButton.B23
  | 0x126 => some PointerButton.B24
  | 0x127 => some PointerButton.B25
  | 0x128 => some PointerButton.B26
  | 0x129 => some PointerButton.B27
  | 0x12a => some PointerButton.B28
  | 0x12b => some PointerButton.B29
  | 0x12c => some PointerButton.B30
  | 0x12d => some PointerButton.B31
  | 0x12e => some PointerButton.B32
  | _ => none

/-- An outgoing `Events::Pointer` press/release payload: the mapped button (an
`Option` — `ui_events` down/up events carry `Option<PointerButton>`) and the
target window identity. -/
inductive PointerOut where
  | down (button : Option PointerButton) (id : WindowId)
  | up (button : Option PointerButton) (id : WindowId)
deriving DecidableEq

/-- What the `Press`/`Release` arms of `PointerHandler::pointer_frame` produce
(`src/seat/pointer.rs` lines 79-109 and 150-173). -/
inductive PressOutcome where
  /-- No event and no action (unregistered window, or an unknown code on a
  decoration surface — the `continue`). -/
  | skip
  /-- An `Events::Pointer` down/up event pushed to the internal queue. -/
  | event (e : PointerOut)
  /-- The click handed to the decoration frame (`frame.on_click`, external). -/
  | frameClick
deriving DecidableEq

/-- The press/release routing of `pointer_frame`: nothing when the target
window is not registered; on a decoration surface only raw codes `0x110`
(`FrameClick::Normal`) and `0x111` (`FrameClick::Alternate`) reach the frame,
any other code hits the `continue`; on the window surface itself a down/up
event carrying `try_from_button code` is pushed unconditionally. -/
def pressOutcome (registered decorationSurface pressed : Bool) (code : Nat)
    (parentId : WindowId) : PressOutcome :=
  if !registered then PressOutcome.skip
  else if decorationSurface then
    if code = 0x110 then PressOutcome.frameClick
    else if code = 0x111 then PressOutcome.frameClick
    else PressOutcome.skip
  else if pressed then PressOutcome.event (PointerOut.down (try_from_button code) parentId)
  else PressOutcome.event (PointerOut.up (try_from_button code) parentId)

/-! ### Shared sample values -/

/-- A window as produced by `create_window` from default attributes (no frame,
size 256×256, minimum 2×1, scale 1, empty state). -/
def sampleWindow : WaylandWindow := WaylandWindow.new 1 defaultWindowAttributes false

/-! ### Helper lemmas about the configure phases -/

lemma applyDecorations_state (sc cf : Bool) (fn : Option Frame) (w : WaylandWindow)
    (c : WindowConfigure) : (applyDecorations sc cf fn w c).1.state = w.state := by
  unfold applyDecorations
  split
  · cases fn <;> rfl
  · split <;> rfl

lemma applyDecorations_size (sc cf : Bool) (fn : Option Frame) (w : WaylandWindow)
    (c : WindowConfigure) : (applyDecorations sc cf fn w c).1.size = w.size := by
  unfold applyDecorations
  split
  · cases fn <;> rfl
  · split <;> rfl

lemma stagedWindow_state (sc cf : Bool) (fn : Option Frame) (w : WaylandWindow)
    (c : WindowConfigure) : (stagedWindow sc cf fn w c).state = w.state := by
  unfold stagedWindow
  simpa using applyDecorations_state sc cf fn w c

lemma stagedWindow_size (sc cf : Bool) (fn : Option Frame) (w : WaylandWindow)
    (c : WindowConfigure) : (stagedWindow sc cf fn w c).size = w.size := by
  unfold stagedWindow
  simpa using applyDecorations_size sc cf fn w c

/-- The resize decision of `configure`, spelled out: a state-bit change outside
`ACTIVATED | SUSPENDED`, or a computed size different from the current one. -/
lemma configure_resize_eq (sc cf : Bool) (fn : Option Frame) (w : WaylandWindow)
    (c : WindowConfigure) :
    (configureWindow sc cf fn w c).resize
      = (decide (bitflagsDiff (w.state ^^^ c.state) (ACTIVATED ||| SUSPENDED) ≠ 0)
         || decide (computedNewSize (stagedWindow sc cf fn w c) c ≠ w.size)) := by
  unfold configureWindow
  simp only []
  rw [stagedWindow_state, stagedWindow_size]

lemma nat_xor_eq_zero {a b : Nat} (h : a ^^^ b = 0) : a = b := by
  have h2 : a ^^^ (a ^^^ b) = a ^^^ 0 := by rw [h]
  rw [← Nat.xor_assoc, Nat.xor_self, Nat.zero_xor, Nat.xor_zero] at h2
  exact h2.symm

/-! ### C2 — resize is triggered iff the size changed or a non-trivial state bit flipped -/

/-- C2: for every configure applied to a registered window, a resize is
triggered if and only if the newly computed size differs from the window's
current size or the symmetric difference of the old and new state bitsets has
a bit outside `{ACTIVATED, SUSPENDED}`.  In particular (second conjunct) a
transition touching only activated/suspended bits at unchanged computed size
triggers no resize, and (third conjunct) any state change outside those two
bits forces one even at unchanged size. -/
theorem configure_resize_iff (sc cf : Bool) (fn : Option Frame) (w : WaylandWindow)
    (c : WindowConfigure) :
    ((configureWindow sc cf fn w c).resize = true ↔
      (computedNewSize (stagedWindow sc cf fn w c) c ≠ w.size
        ∨ bitflagsDiff (w.state ^^^ c.state) (ACTIVATED ||| SUSPENDED) ≠ 0))
    ∧ ((w.state ^^^ c.state) &&& (ACTIVATED ||| SUSPENDED) = w.state ^^^ c.state →
        computedNewSize (stagedWindow sc cf fn w c) c = w.size →
        (configureWindow sc cf fn w c).resize = false)
    ∧ ((w.state ^^^ c.state) &&& (ACTIVATED ||| SUSPENDED) ≠ w.state ^^^ c.state →
        (configureWindow sc cf fn w c).resize = true) := by
  have hiff : (configureWindow sc cf fn w c).resize = true ↔
      (computedNewSize (stagedWindow sc cf fn w c) c ≠ w.size
        ∨ bitflagsDiff (w.state ^^^ c.state) (ACTIVATED ||| SUSPENDED) ≠ 0) := by
    rw [configure_resize_eq]
    simp only [Bool.or_eq_true, decide_eq_true_eq]
    tauto
  refine ⟨hiff, ?_, ?_⟩
  · intro hmask hsize
    have hdiff : bitflagsDiff (w.state ^^^ c.state) (ACTIVATED ||| SUSPENDED) = 0 := by
      unfold bitflagsDiff
      rw [hmask, Nat.xor_self]
    cases hres : (configureWindow sc cf fn w c).resize with
    | false => rfl
    | true =>
      rcases hiff.mp hres with h | h
      · exact absurd hsize h
      · exact absurd hdiff h
  · intro hmask
    refine hiff.mpr (Or.inr ?_)
    intro hzero
    exact hmask (nat_xor_eq_zero hzero).symm

/-- Inputs for the C2 witness: a configure flipping only the `ACTIVATED` bit
with no suggested size, and one flipping `MAXIMIZED`. -/
def c2cfgActivated : WindowConfigure :=
  { new_size := (none, none), suggested_bounds := none,
    decoration_mode := DecorationMode.Server, state := ACTIVATED, capabilities := 0 }

def c2cfgMaximized : WindowConfigure :=
  { new_size := (none, none), suggested_bounds := none,
    decoration_mode := DecorationMode.Server, state := MAXIMIZED, capabilities := 0 }

/-- Witness for C2: on the sample window, an activated-only transition at
unchanged size triggers no resize, while a maximize transition at unchanged
size does. -/
theorem configure_resize_iff_witness :
    (configureWindow false true none sampleWindow c2cfgActivated).resize = false
    ∧ (configureWindow false true none sampleWindow c2cfgMaximized).resize = true :=
  ⟨(configure_resize_iff false true none sampleWindow c2cfgActivated).2.1 (by decide) (by decide),
   (configure_resize_iff false true none sampleWindow c2cfgMaximized).2.2 (by decide)⟩

/-! ### C3 — the `size ≥ min_surface_size` invariant fails: `resize` does not clamp -/

/-- A configure suggesting a 1×1 size (legal `NonZeroU32` values) with
server-side decorations and an empty state bitset. -/
def c3cfg : WindowConfigure :=
  { new_size := (some 1, some 1), suggested_bounds := none,
    decoration_mode := DecorationMode.Server, state := 0, capabilities := 0 }

def c3out : ConfigureOutcome := configureWindow false true none sampleWindow c3cfg

/-- Counterexample to C3: on a freshly created default window (size 256×256,
minimum 2×1), a configure suggesting 1×1 triggers a resize that stores 1×1,
leaving the width strictly below the minimum width — so
`size ≥ min_surface_size` does not hold after this resize. -/
theorem undersized_configure_breaks_min_invariant :
    c3out.resize = true
    ∧ ¬ LogicalSize.sizeLe c3out.window.min_surface_size c3out.window.size := by
  exact ⟨by decide, by decide⟩

/-- C3 as amended: `resize` stores exactly the requested size and leaves the
minimum unchanged — it performs no clamping — so the invariant
`size ≥ min_surface_size` survives a resize precisely when the requested size
already respects the minimum. -/
theorem resize_stores_requested_size (w : WaylandWindow) (s : LogicalSize) :
    (w.resize s).size = s
    ∧ (w.resize s).min_surface_size = w.min_surface_size
    ∧ (LogicalSize.sizeLe w.min_surface_size s →
        LogicalSize.sizeLe ((w.resize s)).min_surface_size ((w.resize s)).size) := by
  have hsz : (w.resize s).size = s := by
    unfold WaylandWindow.resize
    by_cases hs : w.stateless = true <;> simp [hs]
  have hmin : (w.resize s).min_surface_size = w.min_surface_size := by
    unfold WaylandWindow.resize
    by_cases hs : w.stateless = true <;> simp [hs]
  refine ⟨hsz, hmin, fun h => ?_⟩
  rw [hsz, hmin]
  exact h

/-- Witness for the amended C3 at a size above the minimum. -/
theorem resize_stores_requested_size_witness :
    LogicalSize.sizeLe ((sampleWindow.resize { width := 300, height := 200 })).min_surface_size
      ((sampleWindow.resize { width := 300, height := 200 })).size :=
  (resize_stores_requested_size sampleWindow { width := 300, height := 200 }).2.2 (by decide)

/-! ### C4 — `PointerRegistry::remove` never returns the info, so no cancel events are sent -/

lemma lookupKey_eraseKey {α : Type} (l : List (Nat × α)) (k : Nat) :
    lookupKey (eraseKey l k) k = none := by
  induction l with
  | nil => rfl
  | cons p rest ih =>
    by_cases h : p.1 = k
    · have he : eraseKey (p :: rest) k = eraseKey rest k := by
        simp [eraseKey, List.filter_cons, h]
      rw [he]
      exact ih
    · have he : eraseKey (p :: rest) k = p :: eraseKey rest k := by
        simp [eraseKey, List.filter_cons, h]
      have hl : lookupKey (p :: eraseKey rest k) k = lookupKey (eraseKey rest k) k := by
        unfold lookupKey
        rw [List.find?_cons_of_neg]
        simp [h]
      rw [he, hl]
      exact ih

/-- `PointerRegistry::remove` always returns `None`: it erases the `by_pointer`
entry for the pointer id and then looks that id up in the erased map. -/
lemma remove_returns_none (r : PointerRegistry) (seat_id : Nat) :
    (r.remove seat_id).1 = none := by
  unfold PointerRegistry.remove
  cases h : lookupKey r.by_seat seat_id with
  | none => rfl
  | some p => simp [lookupKey_eraseKey]

/-- A registry with seat 0 owning pointer 1 (consistently registered in both
maps) — the kind of state `new_capability` builds. -/
def c4registry : PointerRegistry :=
  { by_seat := [(0, (1, PointerKind.mouse))]
    by_pointer := [(1, (0, { pointer_id := 42 }))] }

/-- C4 is a code bug: removing the registered seat 0 from `c4registry` returns
`None` (the info record is lost because the `by_pointer` entry is removed and
then looked up), and consequently `remove_capability` delivers zero cancel
events to the one open window instead of exactly one. -/
theorem pointer_remove_sends_no_cancel :
    (c4registry.remove 0).1 = none
    ∧ (remove_capability c4registry [10] 0).2 = [] := by
  exact ⟨by decide, by decide⟩

/-! ### C5 — the do-not-retry flag never engages: construction is re-attempted after failure -/

/-- A configure requesting client-side decorations with no suggested size. -/
def c5cfg : WindowConfigure :=
  { new_size := (none, none), suggested_bounds := none,
    decoration_mode := DecorationMode.Client, state := 0, capabilities := 0 }

/-- Handler state right after startup: one frameless window, a subcompositor,
and `csd_fails` at its `WaylandState::new` value. -/
def c5state0 : HandlerState :=
  { windows := [(1, sampleWindow)], subcompositor := true, csd_fails := initialCsdFails,
    resize_request := [], redraw_request := [] }

def c5state1 : HandlerState := configureHandler c5state0 1 c5cfg none

/-- C5 is a code bug: a configure requesting client decorations attempts frame
construction; when construction fails the handler stores `csd_fails = true` —
the very value that gates construction on — so an identical later configure
attempts construction again.  The flag never prevents a retry. -/
theorem csd_construction_retries_after_failure :
    configAttempted c5state0 1 c5cfg none = true
    ∧ c5state1.csd_fails = true
    ∧ configAttempted c5state1 1 c5cfg none = true := by
  exact ⟨by decide, by decide, by decide⟩

/-! ### C6 — every configure marks redraw; resize marks the resize set exactly when triggered -/

/-- C6: `configure` inserts the window identity into the redraw pending set
unconditionally, and into the resize pending set exactly when a resize was
triggered; when no resize is triggered the resize set is left unchanged. -/
theorem configure_marks_redraw_and_resize (st : HandlerState) (id : WindowId)
    (c : WindowConfigure) (fn : Option Frame) :
    (configureHandler st id c fn).redraw_request = setInsert st.redraw_request id
    ∧ (configureHandler st id c fn).resize_request
        = (if configResizeTriggered st id c fn = true then setInsert st.resize_request id
           else st.resize_request) := by
  unfold configureHandler configResizeTriggered
  cases h : lookupKey st.windows id <;> simp [h]

/-! ### C9 — unknown button codes still produce an event on the window surface -/

/-- Counterexample to C9: `0x300` is outside the fixed enumeration, yet a press
on a registered window surface pushes an `Events::Pointer` down event (with an
empty button field) — not "no event". -/
theorem unknown_button_still_emits_event :
    try_from_button 0x300 = none
    ∧ pressOutcome true false true 0x300 7 = PressOutcome.event (PointerOut.down none 7) := by
  exact ⟨rfl, rfl⟩

/-- C9 as amended: on the window surface every press/release emits an event
whose button field is `try_from_button code` — the corresponding fixed value
for codes inside the enumeration and `none` (rather than no event) for codes
outside it; on a decoration surface only the raw codes `0x110`/`0x111` reach
the frame, all other codes produce nothing. -/
theorem press_event_button_mapping (code : Nat) (id : WindowId) (pressed : Bool) :
    (pressOutcome true false pressed code id
      = (if pressed then PressOutcome.event (PointerOut.down (try_from_button code) id)
         else PressOutcome.event (PointerOut.up (try_from_button code) id)))
    ∧ (code ≠ 0x110 → code ≠ 0x111 →
        pressOutcome true true pressed code id = PressOutcome.skip) := by
  constructor
  · cases pressed <;> rfl
  · intro h1 h2
    unfold pressOutcome
    simp [h1, h2]

/-- Witness for the amended C9: a press with the unknown code `0x300` on a
decoration surface produces nothing. -/
theorem press_event_button_mapping_witness :
    pressOutcome true true true 0x300 3 = PressOutcome.skip :=
  (press_event_button_mapping 0x300 3 true).2 (by decide) (by decide)

/-! ### C10 — title truncation -/

lemma truncateLen_le (s : List Nat) : ∀ n, truncateLen s n ≤ n
  | 0 => Nat.le_refl 0
  | n + 1 => by
    unfold truncateLen
    split
    · exact Nat.le_refl _
    · exact Nat.le_trans (truncateLen_le s n) (Nat.le_succ n)

lemma truncateLen_boundary (s : List Nat) : ∀ n, is_char_boundary s (truncateLen s n) = true
  | 0 => rfl
  | n + 1 => by
    unfold truncateLen
    split
    · assumption
    · exact truncateLen_boundary s n

lemma is_char_boundary_length (s : List Nat) : is_char_boundary s s.length = true := by
  unfold is_char_boundary
  by_cases h0 : s.length = 0
  · simp [h0]
  · rw [if_neg h0]
    have hnone : s.get? s.length = none := by
      rw [List.get?_eq_none]
    rw [hnone]
    simp

/-- C10: `set_title` stores a title of at most 1024 bytes that is a prefix of
the input (`take k` for some `k`), cut at a UTF-8 character boundary of the
input; inputs of at most 1024 bytes are stored unchanged. -/
theorem set_title_truncates (w : WaylandWindow) (title : List Nat) :
    (w.set_title title).title.length ≤ 1024
    ∧ (∃ k, (w.set_title title).title = title.take k)
    ∧ is_char_boundary title ((w.set_title title).title.length) = true
    ∧ (title.length ≤ 1024 → (w.set_title title).title = title) := by
  have hti : (w.set_title title).title = titleTruncate title := rfl
  rw [hti]
  unfold titleTruncate
  by_cases h : 1024 < title.length
  · rw [if_pos h]
    have hle := truncateLen_le title 1024
    have hlen : (title.take (truncateLen title 1024)).length = truncateLen title 1024 := by
      rw [List.length_take]
      omega
    refine ⟨?_, ⟨truncateLen title 1024, rfl⟩, ?_, ?_⟩
    · rw [hlen]; omega
    · rw [hlen]; exact truncateLen_boundary title 1024
    · intro hc; omega
  · rw [if_neg h]
    exact ⟨by omega, ⟨title.length, (List.take_length title).symm⟩,
      is_char_boundary_length title, fun _ => rfl⟩

/-- Witness for C10: a short title is stored unchanged. -/
theorem set_title_truncates_witness :
    (sampleWindow.set_title [104, 105]).title = [104, 105] :=
  (set_title_truncates sampleWindow [104, 105]).2.2.2 (by decide)

/-! ### Helper lemmas for the tick drain (claims about ordering, folding, dedup, staleness) -/

/-- Rank of the four ordered notification kinds within a tick: rescale before
resize before redraw before close; other callbacks are unranked. -/
def coreRank : Callback → Option Nat
  | Callback.rescaleCb _ => some 0
  | Callback.resizeCb _ => some 1
  | Callback.drawCb _ => some 2
  | Callback.closeCb _ => some 3
  | _ => none

lemma count_zero_of_forall {l : List Callback} {c : Callback} (h : ∀ cb ∈ l, cb ≠ c) :
    l.count c = 0 := by
  rw [List.count_eq_zero]
  intro hc
  exact h c hc rfl

lemma pairwise_const {l : List Nat} {a : Nat} (h : ∀ x ∈ l, x = a) :
    List.Pairwise (· ≤ ·) l := by
  induction l with
  | nil => constructor
  | cons b rest ih =>
    constructor
    · intro y hy
      rw [h b (List.mem_cons_self b rest), h y (List.mem_cons_of_mem b hy)]
    · exact ih fun x hx => h x (List.mem_cons_of_mem b hx)

lemma mem_setInsert_self (s : List WindowId) (x : WindowId) : x ∈ setInsert s x := by
  unfold setInsert
  split
  · assumption
  · simp

lemma mem_setInsert_of_mem (s : List WindowId) (x y : WindowId) (h : y ∈ s) :
    y ∈ setInsert s x := by
  unfold setInsert
  split
  · exact h
  · simp [h]

lemma setInsert_nodup (s : List WindowId) (x : WindowId) (h : s.Nodup) :
    (setInsert s x).Nodup := by
  unfold setInsert
  split
  · exact h
  · rename_i hx
    rw [List.nodup_append]
    refine ⟨h, List.nodup_singleton x, ?_⟩
    intro a ha hax
    rw [List.mem_singleton] at hax
    exact hx (hax ▸ ha)

lemma drainRescale_mem (ws rs : List WindowId) :
    ∀ acc cb, cb ∈ (drainRescale ws rs acc).1 →
      ∃ x, cb = Callback.rescaleCb x ∧ x ∈ ws ∧ x ∈ rs := by
  induction rs with
  | nil =>
    intro acc cb h
    simp [drainRescale] at h
  | cons id rest ih =>
    intro acc cb h
    unfold drainRescale at h
    by_cases hid : id ∈ ws
    · rw [if_pos hid] at h
      rcases List.mem_cons.mp h with h | h
      · exact ⟨id, h, hid, List.mem_cons_self id rest⟩
      · obtain ⟨x, hx1, hx2, hx3⟩ := ih _ cb h
        exact ⟨x, hx1, hx2, List.mem_cons_of_mem id hx3⟩
    · rw [if_neg hid] at h
      obtain ⟨x, hx1, hx2, hx3⟩ := ih _ cb h
      exact ⟨x, hx1, hx2, List.mem_cons_of_mem id hx3⟩

lemma drainRescale_count (ws rs : List WindowId) (x : WindowId) :
    ∀ acc, (drainRescale ws rs acc).1.count (Callback.rescaleCb x) ≤ rs.count x := by
  induction rs with
  | nil =>
    intro acc
    simp [drainRescale]
  | cons id rest ih =>
    intro acc
    unfold drainRescale
    by_cases hx : x = id
    · subst hx
      by_cases hid : x ∈ ws
      · rw [if_pos hid]
        have := ih (setInsert acc x)
        simp only [List.count_cons, beq_self_eq_true, if_true]
        omega
      · rw [if_neg hid]
        have := ih acc
        simp only [List.count_cons, beq_self_eq_true, if_true]
        omega
    · have hcb : ¬ (Callback.rescaleCb id = Callback.rescaleCb x) := by
        intro h
        exact hx (Callback.rescaleCb.inj h).symm
      have hxid : ¬ (id = x) := fun h => hx h.symm
      by_cases hid : id ∈ ws
      · rw [if_pos hid]
        have := ih (setInsert acc id)
        simp only [List.count_cons, beq_iff_eq, if_neg hcb, if_neg hxid]
        omega
      · rw [if_neg hid]
        have := ih acc
        simp only [List.count_cons, beq_iff_eq, if_neg hxid]
        omega

lemma drainRescale_acc (ws rs : List WindowId) :
    ∀ acc y, y ∈ acc → y ∈ (drainRescale ws rs acc).2 := by
  induction rs with
  | nil =>
    intro acc y h
    simpa [drainRescale] using h
  | cons id rest ih =>
    intro acc y h
    unfold drainRescale
    by_cases hid : id ∈ ws
    · rw [if_pos hid]
      exact ih _ y (mem_setInsert_of_mem acc id y h)
    · rw [if_neg hid]
      exact ih _ y h

lemma drainRescale_fold (ws rs : List WindowId) (x : WindowId) (hx : x ∈ ws) :
    ∀ acc, x ∈ rs → x ∈ (drainRescale ws rs acc).2 := by
  induction rs with
  | nil =>
    intro acc h
    exact absurd h (List.not_mem_nil x)
  | cons id rest ih =>
    intro acc h
    unfold drainRescale
    rcases List.mem_cons.mp h with h | h
    · subst h
      rw [if_pos hx]
      exact drainRescale_acc ws rest _ x (mem_setInsert_self acc x)
    · by_cases hid : id ∈ ws
      · rw [if_pos hid]
        exact ih _ h
      · rw [if_neg hid]
        exact ih _ h

lemma drainRescale_nodup (ws rs : List WindowId) :
    ∀ acc, acc.Nodup → (drainRescale ws rs acc).2.Nodup := by
  induction rs with
  | nil =>
    intro acc h
    simpa [drainRescale] using h
  | cons id rest ih =>
    intro acc h
    unfold drainRescale
    by_cases hid : id ∈ ws
    · rw [if_pos hid]
      exact ih _ (setInsert_nodup acc id h)
    · rw [if_neg hid]
      exact ih _ h

lemma drainResize_mem (ws : List WindowId) (locks : List (WindowId × Option LogicalSize))
    (rs : List WindowId) :
    ∀ acc p, drainResize ws locks rs acc = Except.ok p → ∀ cb ∈ p.1,
      ∃ x, cb = Callback.resizeCb x ∧ (x ∈ ws ∨ lookupKey locks x ≠ none) := by
  induction rs with
  | nil =>
    intro acc p hp cb hcb
    unfold drainResize at hp
    injection hp with hp
    subst hp
    simp at hcb
  | cons id rest ih =>
    intro acc p hp cb hcb
    unfold drainResize at hp
    by_cases hid : id ∈ ws
    · rw [if_pos hid] at hp
      cases hrec : drainResize ws locks rest (setInsert acc id) with
      | error e =>
        rw [hrec] at hp
        exact Except.noConfusion hp
      | ok q =>
        rw [hrec] at hp
        injection hp with hp
        subst hp
        rcases List.mem_cons.mp hcb with h | h
        · exact ⟨id, h, Or.inl hid⟩
        · exact ih _ q hrec cb h
    · rw [if_neg hid] at hp
      cases hlk : lookupKey locks id with
      | none =>
        rw [hlk] at hp
        exact ih _ p hp cb hcb
      | some osz =>
        rw [hlk] at hp
        cases osz with
        | none => exact Except.noConfusion hp
        | some sz =>
          cases hrec : drainResize ws locks rest (setInsert acc id) with
          | error e =>
            rw [hrec] at hp
            exact Except.noConfusion hp
          | ok q =>
            rw [hrec] at hp
            injection hp with hp
            subst hp
            rcases List.mem_cons.mp hcb with h | h
            · refine ⟨id, h, Or.inr ?_⟩
              rw [hlk]
              simp
            · exact ih _ q hrec cb h

lemma drainResize_acc (ws : List WindowId) (locks : List (WindowId × Option LogicalSize))
    (rs : List WindowId) :
    ∀ acc p y, drainResize ws locks rs acc = Except.ok p → y ∈ acc → y ∈ p.2 := by
  induction rs with
  | nil =>
    intro acc p y hp hy
    unfold drainResize at hp
    injection hp with hp
    subst hp
    exact hy
  | cons id rest ih =>
    intro acc p y hp hy
    unfold drainResize at hp
    by_cases hid : id ∈ ws
    · rw [if_pos hid] at hp
      cases hrec : drainResize ws locks rest (setInsert acc id) with
      | error e =>
        rw [hrec] at hp
        exact Except.noConfusion hp
      | ok q =>
        rw [hrec] at hp
        injection hp with hp
        subst hp
        exact ih _ q y hrec (mem_setInsert_of_mem acc id y hy)
    · rw [if_neg hid] at hp
      cases hlk : lookupKey locks id with
      | none =>
        rw [hlk] at hp
        exact ih _ p y hp hy
      | some osz =>
        rw [hlk] at hp
        cases osz with
        | none => exact Except.noConfusion hp
        | some sz =>
          cases hrec : drainResize ws locks rest (setInsert acc id) with
          | error e =>
            rw [hrec] at hp
            exact Except.noConfusion hp
          | ok q =>
            rw [hrec] at hp
            injection hp with hp
            subst hp
            exact ih _ q y hrec (mem_setInsert_of_mem acc id y hy)

lemma drainResize_emits (ws : List WindowId) (locks : List (WindowId × Option LogicalSize))
    (rs : List WindowId) (x : WindowId) (hx : x ∈ ws) :
    ∀ acc p, drainResize ws locks rs acc = Except.ok p → x ∈ rs →
      Callback.resizeCb x ∈ p.1 ∧ x ∈ p.2 := by
  induction rs with
  | nil =>
    intro acc p hp hmem
    exact absurd hmem (List.not_mem_nil x)
  | cons id rest ih =>
    intro acc p hp hmem
    unfold drainResize at hp
    rcases List.mem_cons.mp hmem with hxid | hxrest
    · subst hxid
      rw [if_pos hx] at hp
      cases hrec : drainResize ws locks rest (setInsert acc x) with
      | error e =>
        rw [hrec] at hp
        exact Except.noConfusion hp
      | ok q =>
        rw [hrec] at hp
        injection hp with hp
        subst hp
        refine ⟨List.mem_cons_self _ _, ?_⟩
        exact drainResize_acc ws locks rest _ q x hrec (mem_setInsert_self acc x)
    · by_cases hid : id ∈ ws
      · rw [if_pos hid] at hp
        cases hrec : drainResize ws locks rest (setInsert acc id) with
        | error e =>
          rw [hrec] at hp
          exact Except.noConfusion hp
        | ok q =>
          rw [hrec] at hp
          injection hp with hp
          subst hp
          obtain ⟨h1, h2⟩ := ih _ q hrec hxrest
          exact ⟨List.mem_cons_of_mem _ h1, h2⟩
      · rw [if_neg hid] at hp
        cases hlk : lookupKey locks id with
        | none =>
          rw [hlk] at hp
          exact ih _ p hp hxrest
        | some osz =>
          rw [hlk] at hp
          cases osz with
          | none => exact Except.noConfusion hp
          | some sz =>
            cases hrec : drainResize ws locks rest (setInsert acc id) with
            | error e =>
              rw [hrec] at hp
              exact Except.noConfusion hp
            | ok q =>
              rw [hrec] at hp
              injection hp with hp
              subst hp
              obtain ⟨h1, h2⟩ := ih _ q hrec hxrest
              exact ⟨List.mem_cons_of_mem _ h1, h2⟩

lemma drainResize_count (ws : List WindowId) (locks : List (WindowId × Option LogicalSize))
    (rs : List WindowId) (x : WindowId) :
    ∀ acc p, drainResize ws locks rs acc = Except.ok p →
      p.1.count (Callback.resizeCb x) ≤ rs.count x := by
  induction rs with
  | nil =>
    intro acc p hp
    unfold drainResize at hp
    injection hp with hp
    subst hp
    simp
  | cons id rest ih =>
    intro acc p hp
    unfold drainResize at hp
    have hstep : ∀ q, drainResize ws locks rest (setInsert acc id) = Except.ok q →
        p.1 = Callback.resizeCb id :: q.1 →
        p.1.count (Callback.resizeCb x) ≤ (id :: rest).count x := by
      intro q hq hpq
      have hq2 := ih _ q hq
      rw [hpq]
      by_cases hxid : x = id
      · subst hxid
        simp only [List.count_cons, beq_self_eq_true, if_true]
        omega
      · have hcb : ¬ (Callback.resizeCb id = Callback.resizeCb x) := by
          intro h
          exact hxid (Callback.resizeCb.inj h).symm
        have hne : ¬ (id = x) := fun h => hxid h.symm
        simp only [List.count_cons, beq_iff_eq, if_neg hcb, if_neg hne]
        omega
    by_cases hid : id ∈ ws
    · rw [if_pos hid] at hp
      cases hrec : drainResize ws locks rest (setInsert acc id) with
      | error e =>
        rw [hrec] at hp
        exact Except.noConfusion hp
      | ok q =>
        rw [hrec] at hp
        injection hp with hp
        exact hstep q hrec (congrArg Prod.fst hp.symm)
    · rw [if_neg hid] at hp
      cases hlk : lookupKey locks id with
      | none =>
        rw [hlk] at hp
        have := ih _ p hp
        simp only [List.count_cons]
        by_cases hxid : x = id
        · subst hxid
          simp only [beq_self_eq_true, if_true]
          omega
        · have hne : ¬ (id = x) := fun h => hxid h.symm
          simp only [beq_iff_eq, if_neg hne]
          omega
      | some osz =>
        rw [hlk] at hp
        cases osz with
        | none => exact Except.noConfusion hp
        | some sz =>
          cases hrec : drainResize ws locks rest (setInsert acc id) with
          | error e =>
            rw [hrec] at hp
            exact Except.noConfusion hp
          | ok q =>
            rw [hrec] at hp
            injection hp with hp
            exact hstep q hrec (congrArg Prod.fst hp.symm)

lemma drainResize_nodup (ws : List WindowId) (locks : List (WindowId × Option LogicalSize))
    (rs : List WindowId) :
    ∀ acc p, drainResize ws locks rs acc = Except.ok p → acc.Nodup → p.2.Nodup := by
  induction rs with
  | nil =>
    intro acc p hp h
    unfold drainResize at hp
    injection hp with hp
    subst hp
    exact h
  | cons id rest ih =>
    intro acc p hp h
    unfold drainResize at hp
    by_cases hid : id ∈ ws
    · rw [if_pos hid] at hp
      cases hrec : drainResize ws locks rest (setInsert acc id) with
      | error e =>
        rw [hrec] at hp
        exact Except.noConfusion hp
      | ok q =>
        rw [hrec] at hp
        injection hp with hp
        subst hp
        exact ih _ q hrec (setInsert_nodup acc id h)
    · rw [if_neg hid] at hp
      cases hlk : lookupKey locks id with
      | none =>
        rw [hlk] at hp
        exact ih _ p hp h
      | some osz =>
        rw [hlk] at hp
        cases osz with
        | none => exact Except.noConfusion hp
        | some sz =>
          cases hrec : drainResize ws locks rest (setInsert acc id) with
          | error e =>
            rw [hrec] at hp
            exact Except.noConfusion hp
          | ok q =>
            rw [hrec] at hp
            injection hp with hp
            subst hp
            exact ih _ q hrec (setInsert_nodup acc id h)

lemma drainRedraw_mem (ws : List WindowId) :
    ∀ set cb, cb ∈ drainRedraw ws set → ∃ x, cb = Callback.drawCb x ∧ x ∈ ws := by
  intro set
  induction set with
  | nil =>
    intro cb h
    simp [drainRedraw] at h
  | cons id rest ih =>
    intro cb h
    unfold drainRedraw at h
    by_cases hid : id ∈ ws
    · rw [if_pos hid] at h
      rcases List.mem_cons.mp h with h | h
      · exact ⟨id, h, hid⟩
      · exact ih cb h
    · rw [if_neg hid] at h
      exact ih cb h

lemma drainRedraw_emits (ws : List WindowId) (x : WindowId) (hx : x ∈ ws) :
    ∀ set, x ∈ set → Callback.drawCb x ∈ drainRedraw ws set := by
  intro set
  induction set with
  | nil =>
    intro h
    exact absurd h (List.not_mem_nil x)
  | cons id rest ih =>
    intro h
    unfold drainRedraw
    rcases List.mem_cons.mp h with h | h
    · subst h
      rw [if_pos hx]
      exact List.mem_cons_self _ _
    · by_cases hid : id ∈ ws
      · rw [if_pos hid]
        exact List.mem_cons_of_mem _ (ih h)
      · rw [if_neg hid]
        exact ih h

lemma drainRedraw_count (ws : List WindowId) (x : WindowId) :
    ∀ set, (drainRedraw ws set).count (Callback.drawCb x) ≤ set.count x := by
  intro set
  induction set with
  | nil => simp [drainRedraw]
  | cons id rest ih =>
    unfold drainRedraw
    by_cases hxid : x = id
    · subst hxid
      by_cases hid : x ∈ ws
      · rw [if_pos hid]
        simp only [List.count_cons, beq_self_eq_true, if_true]
        omega
      · rw [if_neg hid]
        simp only [List.count_cons, beq_self_eq_true, if_true]
        omega
    · have hcb : ¬ (Callback.drawCb id = Callback.drawCb x) := by
        intro h
        exact hxid (Callback.drawCb.inj h).symm
      have hne : ¬ (id = x) := fun h => hxid h.symm
      by_cases hid : id ∈ ws
      · rw [if_pos hid]
        simp only [List.count_cons, beq_iff_eq, if_neg hcb, if_neg hne]
        omega
      · rw [if_neg hid]
        simp only [List.count_cons, beq_iff_eq, if_neg hne]
        omega

lemma drainClose_mem (reqs : List WindowId) :
    ∀ ws p, drainClose ws reqs = Except.ok p → ∀ cb ∈ p.1,
      ∃ x, cb = Callback.closeCb x ∧ x ∈ ws := by
  induction reqs with
  | nil =>
    intro ws p hp cb hcb
    unfold drainClose at hp
    injection hp with hp
    subst hp
    simp at hcb
  | cons id rest ih =>
    intro ws p hp cb hcb
    unfold drainClose at hp
    by_cases hid : id ∈ ws
    · rw [if_pos hid] at hp
      cases hrec : drainClose (ws.erase id) rest with
      | error e =>
        rw [hrec] at hp
        exact Except.noConfusion hp
      | ok q =>
        rw [hrec] at hp
        injection hp with hp
        subst hp
        rcases List.mem_cons.mp hcb with h | h
        · exact ⟨id, h, hid⟩
        · obtain ⟨x, hx1, hx2⟩ := ih _ q hrec cb h
          exact ⟨x, hx1, List.mem_of_mem_erase hx2⟩
    · rw [if_neg hid] at hp
      exact Except.noConfusion hp

lemma drainClose_count (reqs : List WindowId) (x : WindowId) :
    ∀ ws p, drainClose ws reqs = Except.ok p →
      p.1.count (Callback.closeCb x) ≤ reqs.count x := by
  induction reqs with
  | nil =>
    intro ws p hp
    unfold drainClose at hp
    injection hp with hp
    subst hp
    simp
  | cons id rest ih =>
    intro ws p hp
    unfold drainClose at hp
    by_cases hid : id ∈ ws
    · rw [if_pos hid] at hp
      cases hrec : drainClose (ws.erase id) rest with
      | error e =>
        rw [hrec] at hp
        exact Except.noConfusion hp
      | ok q =>
        rw [hrec] at hp
        injection hp with hp
        subst hp
        have := ih _ q hrec
        by_cases hxid : x = id
        · subst hxid
          simp only [List.count_cons, beq_self_eq_true, if_true]
          omega
        · have hcb : ¬ (Callback.closeCb id = Callback.closeCb x) := by
            intro h
            exact hxid (Callback.closeCb.inj h).symm
          have hne : ¬ (id = x) := fun h => hxid h.symm
          simp only [List.count_cons, beq_iff_eq, if_neg hcb, if_neg hne]
          omega
    · rw [if_neg hid] at hp
      exact Except.noConfusion hp

lemma drainNewScreenlock_mem (l : List (WindowId × Option LogicalSize)) :
    ∀ tr, drainNewScreenlock l = Except.ok tr → ∀ cb ∈ tr,
      ∃ x, cb = Callback.createScreenlock x := by
  induction l with
  | nil =>
    intro tr htr cb hcb
    unfold drainNewScreenlock at htr
    injection htr with htr
    subst htr
    simp at hcb
  | cons p rest ih =>
    intro tr htr cb hcb
    obtain ⟨id, osz⟩ := p
    cases osz with
    | none =>
      unfold drainNewScreenlock at htr
      exact Except.noConfusion htr
    | some sz =>
      unfold drainNewScreenlock at htr
      cases hrec : drainNewScreenlock rest with
      | error e =>
        rw [hrec] at htr
        exact Except.noConfusion htr
      | ok q =>
        rw [hrec] at htr
        injection htr with htr
        subst htr
        rcases List.mem_cons.mp hcb with h | h
        · exact ⟨id, h⟩
        · exact ih q hrec cb h

lemma drainAccesskit_mem (ws : List WindowId) :
    ∀ evs cb, cb ∈ drainAccesskit ws evs → coreRank cb = none := by
  intro evs
  induction evs with
  | nil =>
    intro cb h
    simp [drainAccesskit] at h
  | cons ev rest ih =>
    intro cb h
    cases ev with
    | activate id =>
      unfold drainAccesskit at h
      simp only [] at h
      by_cases hid : id ∈ ws
      · rw [if_pos hid] at h
        rcases List.mem_cons.mp h with h | h
        · subst h; rfl
        · exact ih cb h
      · rw [if_neg hid] at h
        exact ih cb h
    | deactivate id =>
      unfold drainAccesskit at h
      simp only [] at h
      by_cases hid : id ∈ ws
      · rw [if_pos hid] at h
        rcases List.mem_cons.mp h with h | h
        · subst h; rfl
        · exact ih cb h
      · rw [if_neg hid] at h
        exact ih cb h
    | action id =>
      unfold drainAccesskit at h
      simp only [] at h
      by_cases hid : id ∈ ws
      · rw [if_pos hid] at h
        rcases List.mem_cons.mp h with h | h
        · subst h; rfl
        · exact ih cb h
      · rw [if_neg hid] at h
        exact ih cb h

lemma drainEvents_mem (kf : Option WindowId) :
    ∀ evs acc cb, cb ∈ (drainEvents kf evs acc).1 → coreRank cb = none := by
  intro evs
  induction evs with
  | nil =>
    intro acc cb h
    simp [drainEvents] at h
  | cons ev rest ih =>
    intro acc cb h
    cases ev with
    | redrawRequest id =>
      unfold drainEvents at h
      exact ih _ cb h
    | keyboard =>
      unfold drainEvents at h
      cases kf with
      | some id =>
        simp only [] at h
        rcases List.mem_cons.mp h with h | h
        · subst h; rfl
        · exact ih _ cb h
      | none => exact ih _ cb h
    | pointerEv id =>
      unfold drainEvents at h
      simp only [] at h
      rcases List.mem_cons.mp h with h | h
      · subst h; rfl
      · exact ih _ cb h
    | focus id f =>
      unfold drainEvents at h
      simp only [] at h
      rcases List.mem_cons.mp h with h | h
      · subst h; rfl
      · exact ih _ cb h

lemma filterMap_coreRank_none {l : List Callback} (h : ∀ cb ∈ l, coreRank cb = none) :
    l.filterMap coreRank = [] := by
  induction l with
  | nil => rfl
  | cons a rest ih =>
    rw [List.filterMap_cons, h a (List.mem_cons_self a rest)]
    exact ih fun cb hcb => h cb (List.mem_cons_of_mem a hcb)

lemma filterMap_coreRank_const {l : List Callback} {k : Nat}
    (h : ∀ cb ∈ l, coreRank cb = some k) :
    ∀ v ∈ l.filterMap coreRank, v = k := by
  intro v hv
  obtain ⟨cb, hcb, hfk⟩ := List.mem_filterMap.mp hv
  rw [h cb hcb] at hfk
  injection hfk with hfk
  exact hfk.symm

lemma pairwise_four_blocks {l1 l2 l3 l4 : List Nat}
    (h1 : ∀ v ∈ l1, v = 0) (h2 : ∀ v ∈ l2, v = 1)
    (h3 : ∀ v ∈ l3, v = 2) (h4 : ∀ v ∈ l4, v = 3) :
    List.Pairwise (· ≤ ·) (l1 ++ (l2 ++ (l3 ++ l4))) := by
  rw [List.pairwise_append]
  refine ⟨pairwise_const h1, ?_, ?_⟩
  · rw [List.pairwise_append]
    refine ⟨pairwise_const h2, ?_, ?_⟩
    · rw [List.pairwise_append]
      refine ⟨pairwise_const h3, pairwise_const h4, ?_⟩
      intro a ha b hb
      rw [h3 a ha, h4 b hb]
      omega
    · intro a ha b hb
      rw [h2 a ha]
      rcases List.mem_append.mp hb with hb | hb
      · rw [h3 b hb]; omega
      · rw [h4 b hb]; omega
  · intro a ha b hb
    rw [h1 a ha]
    exact Nat.zero_le b

/-- Inversion of a successful tick: the sub-drains all succeeded and the trace
is the concatenation of the phase traces in delivery order. -/
lemma tick_ok_inversion (st : TickState) (tr : List Callback) (st2 : TickState)
    (hok : tick st = Except.ok (tr, st2)) :
    ∃ trLock pResize pClose,
      drainNewScreenlock st.new_screenlock = Except.ok trLock
      ∧ drainResize st.windows st.screenlocks
          (drainRescale st.windows st.rescale_request st.resize_request).2
          st.redraw_request = Except.ok pResize
      ∧ drainClose st.windows st.close_request = Except.ok pClose
      ∧ tr = st.new_windows.map Callback.createWindow ++ trLock
          ++ List.replicate st.user_events Callback.userEvent
          ++ (drainRescale st.windows st.rescale_request st.resize_request).1
          ++ pResize.1
          ++ Callback.userSignals ::
              (drainAccesskit st.windows st.accesskit_events
               ++ (drainEvents st.keyboard_focus st.events []).1
               ++ drainRedraw st.windows pResize.2 ++ pClose.1) := by
  unfold tick at hok
  cases hlock : drainNewScreenlock st.new_screenlock with
  | error e =>
    rw [hlock] at hok
    exact Except.noConfusion hok
  | ok trLock =>
    rw [hlock] at hok
    simp only [] at hok
    cases hres : drainResize st.windows st.screenlocks
        (drainRescale st.windows st.rescale_request st.resize_request).2
        st.redraw_request with
    | error e =>
      rw [hres] at hok
      exact Except.noConfusion hok
    | ok pResize =>
      rw [hres] at hok
      simp only [] at hok
      cases hclose : drainClose st.windows st.close_request with
      | error e =>
        rw [hclose] at hok
        exact Except.noConfusion hok
      | ok pClose =>
        rw [hclose] at hok
        simp only [] at hok
        injection hok with hok
        exact ⟨trLock, pResize, pClose, rfl, rfl, rfl, (congrArg Prod.fst hok).symm⟩

lemma count_zero_of_coreRank_none {l : List Callback} (c : Callback)
    (hl : ∀ cb ∈ l, coreRank cb = none) (hc : coreRank c ≠ none) : l.count c = 0 :=
  count_zero_of_forall fun cb hcb heq => hc (heq ▸ hl cb hcb)

lemma count_zero_of_coreRank_ne {l : List Callback} {k : Nat} (c : Callback)
    (hl : ∀ cb ∈ l, coreRank cb = some k) (hc : coreRank c ≠ some k) : l.count c = 0 :=
  count_zero_of_forall fun cb hcb heq => hc (heq ▸ hl cb hcb)

/-! ### C1 — per-tick ordering, folding and deduplication -/

/-- C1: for every successful tick on pending sets without duplicates (the
`IndexSet` invariant), (1) the ranked notifications appear in the trace in the
relative order rescale ≤ resize ≤ redraw ≤ close — in particular no close
precedes any other ranked notification of the tick; (2) every rescale-pending
window still registered receives a resize and a redraw (it is folded through
the resize and redraw sets); (3) every resize-pending registered window
receives a redraw; (4) each window receives each ranked notification at most
once per tick. -/
theorem tick_order_fold_dedup (st : TickState) (tr : List Callback) (st2 : TickState)
    (h1 : st.rescale_request.Nodup) (h2 : st.resize_request.Nodup)
    (h3 : st.redraw_request.Nodup) (h4 : st.close_request.Nodup)
    (hok : tick st = Except.ok (tr, st2)) :
    List.Pairwise (· ≤ ·) (tr.filterMap coreRank)
    ∧ (∀ x, x ∈ st.rescale_request → x ∈ st.windows →
        Callback.resizeCb x ∈ tr ∧ Callback.drawCb x ∈ tr)
    ∧ (∀ x, x ∈ st.resize_request → x ∈ st.windows → Callback.drawCb x ∈ tr)
    ∧ (∀ x, tr.count (Callback.rescaleCb x) ≤ 1 ∧ tr.count (Callback.resizeCb x) ≤ 1
        ∧ tr.count (Callback.drawCb x) ≤ 1 ∧ tr.count (Callback.closeCb x) ≤ 1) := by
  obtain ⟨trLock, pResize, pClose, hlock, hres, hclose, htr⟩ := tick_ok_inversion st tr st2 hok
  have hAn : ∀ cb ∈ st.new_windows.map Callback.createWindow, coreRank cb = none := by
    intro cb hcb
    obtain ⟨i, _, rfl⟩ := List.mem_map.mp hcb
    rfl
  have hBn : ∀ cb ∈ trLock, coreRank cb = none := by
    intro cb hcb
    obtain ⟨y, rfl⟩ := drainNewScreenlock_mem st.new_screenlock trLock hlock cb hcb
    rfl
  have hCn : ∀ cb ∈ List.replicate st.user_events Callback.userEvent, coreRank cb = none := by
    intro cb hcb
    rw [List.eq_of_mem_replicate hcb]
    rfl
  have hD0 : ∀ cb ∈ (drainRescale st.windows st.rescale_request st.resize_request).1,
      coreRank cb = some 0 := by
    intro cb hcb
    obtain ⟨y, rfl, _, _⟩ := drainRescale_mem st.windows st.rescale_request _ cb hcb
    rfl
  have hE1 : ∀ cb ∈ pResize.1, coreRank cb = some 1 := by
    intro cb hcb
    obtain ⟨y, rfl, _⟩ := drainResize_mem st.windows st.screenlocks _ _ pResize hres cb hcb
    rfl
  have hGn : ∀ cb ∈ drainAccesskit st.windows st.accesskit_events, coreRank cb = none :=
    fun cb hcb => drainAccesskit_mem st.windows st.accesskit_events cb hcb
  have hHn : ∀ cb ∈ (drainEvents st.keyboard_focus st.events []).1, coreRank cb = none :=
    fun cb hcb => drainEvents_mem st.keyboard_focus st.events [] cb hcb
  have hI2 : ∀ cb ∈ drainRedraw st.windows pResize.2, coreRank cb = some 2 := by
    intro cb hcb
    obtain ⟨y, rfl, _⟩ := drainRedraw_mem st.windows pResize.2 cb hcb
    rfl
  have hJ3 : ∀ cb ∈ pClose.1, coreRank cb = some 3 := by
    intro cb hcb
    obtain ⟨y, rfl, _⟩ := drainClose_mem st.close_request st.windows pClose hclose cb hcb
    rfl
  refine ⟨?_, ?_, ?_, ?_⟩
  · subst htr
    simp only [List.filterMap_append, List.filterMap_cons, coreRank]
    rw [filterMap_coreRank_none hAn, filterMap_coreRank_none hBn, filterMap_coreRank_none hCn,
      filterMap_coreRank_none hGn, filterMap_coreRank_none hHn]
    simp only [List.nil_append, List.append_nil]
    rw [List.append_assoc]
    exact pairwise_four_blocks (filterMap_coreRank_const hD0) (filterMap_coreRank_const hE1)
      (filterMap_coreRank_const hI2) (filterMap_coreRank_const hJ3)
  · intro x hxr hxw
    have hxset : x ∈ (drainRescale st.windows st.rescale_request st.resize_request).2 :=
      drainRescale_fold st.windows st.rescale_request x hxw st.resize_request hxr
    obtain ⟨hE, hset2⟩ :=
      drainResize_emits st.windows st.screenlocks _ x hxw st.redraw_request pResize hres hxset
    have hI : Callback.drawCb x ∈ drainRedraw st.windows pResize.2 :=
      drainRedraw_emits st.windows x hxw pResize.2 hset2
    subst htr
    constructor
    · simp only [List.mem_append, List.mem_cons]
      tauto
    · simp only [List.mem_append, List.mem_cons]
      tauto
  · intro x hxr hxw
    have hxset : x ∈ (drainRescale st.windows st.rescale_request st.resize_request).2 :=
      drainRescale_acc st.windows st.rescale_request st.resize_request x hxr
    obtain ⟨hE, hset2⟩ :=
      drainResize_emits st.windows st.screenlocks _ x hxw st.redraw_request pResize hres hxset
    have hI : Callback.drawCb x ∈ drainRedraw st.windows pResize.2 :=
      drainRedraw_emits st.windows x hxw pResize.2 hset2
    subst htr
    simp only [List.mem_append, List.mem_cons]
    tauto
  · intro x
    have hrsNodup : (drainRescale st.windows st.rescale_request st.resize_request).2.Nodup :=
      drainRescale_nodup st.windows st.rescale_request st.resize_request h2
    have hrdNodup : pResize.2.Nodup :=
      drainResize_nodup st.windows st.screenlocks _ st.redraw_request pResize hres h3
    have cDle : (drainRescale st.windows st.rescale_request st.resize_request).1.count
        (Callback.rescaleCb x) ≤ 1 :=
      le_trans (drainRescale_count st.windows st.rescale_request x st.resize_request)
        (List.nodup_iff_count_le_one.mp h1 x)
    have cEle : pResize.1.count (Callback.resizeCb x) ≤ 1 :=
      le_trans (drainResize_count st.windows st.screenlocks _ x st.redraw_request pResize hres)
        (List.nodup_iff_count_le_one.mp hrsNodup x)
    have cIle : (drainRedraw st.windows pResize.2).count (Callback.drawCb x) ≤ 1 :=
      le_trans (drainRedraw_count st.windows x pResize.2)
        (List.nodup_iff_count_le_one.mp hrdNodup x)
    have cJle : pClose.1.count (Callback.closeCb x) ≤ 1 :=
      le_trans (drainClose_count st.close_request x st.windows pClose hclose)
        (List.nodup_iff_count_le_one.mp h4 x)
    subst htr
    refine ⟨?_, ?_, ?_, ?_⟩
    · have z1 := count_zero_of_coreRank_none (Callback.rescaleCb x) hAn (by simp [coreRank])
      have z2 := count_zero_of_coreRank_none (Callback.rescaleCb x) hBn (by simp [coreRank])
      have z3 := count_zero_of_coreRank_none (Callback.rescaleCb x) hCn (by simp [coreRank])
      have z4 := count_zero_of_coreRank_ne (Callback.rescaleCb x) hE1 (by simp [coreRank])
      have z5 := count_zero_of_coreRank_none (Callback.rescaleCb x) hGn (by simp [coreRank])
      have z6 := count_zero_of_coreRank_none (Callback.rescaleCb x) hHn (by simp [coreRank])
      have z7 := count_zero_of_coreRank_ne (Callback.rescaleCb x) hI2 (by simp [coreRank])
      have z8 := count_zero_of_coreRank_ne (Callback.rescaleCb x) hJ3 (by simp [coreRank])
      have hus : (Callback.userSignals == Callback.rescaleCb x) = false := by simp
      simp only [List.count_append, List.count_cons, hus, Bool.false_eq_true, if_false]
      omega
    · have z1 := count_zero_of_coreRank_none (Callback.resizeCb x) hAn (by simp [coreRank])
      have z2 := count_zero_of_coreRank_none (Callback.resizeCb x) hBn (by simp [coreRank])
      have z3 := count_zero_of_coreRank_none (Callback.resizeCb x) hCn (by simp [coreRank])
      have z4 := count_zero_of_coreRank_ne (Callback.resizeCb x) hD0 (by simp [coreRank])
      have z5 := count_zero_of_coreRank_none (Callback.resizeCb x) hGn (by simp [coreRank])
      have z6 := count_zero_of_coreRank_none (Callback.resizeCb x) hHn (by simp [coreRank])
      have z7 := count_zero_of_coreRank_ne (Callback.resizeCb x) hI2 (by simp [coreRank])
      have z8 := count_zero_of_coreRank_ne (Callback.resizeCb x) hJ3 (by simp [coreRank])
      have hus : (Callback.userSignals == Callback.resizeCb x) = false := by simp
      simp only [List.count_append, List.count_cons, hus, Bool.false_eq_true, if_false]
      omega
    · have z1 := count_zero_of_coreRank_none (Callback.drawCb x) hAn (by simp [coreRank])
      have z2 := count_zero_of_coreRank_none (Callback.drawCb x) hBn (by simp [coreRank])
      have z3 := count_zero_of_coreRank_none (Callback.drawCb x) hCn (by simp [coreRank])
      have z4 := count_zero_of_coreRank_ne (Callback.drawCb x) hD0 (by simp [coreRank])
      have z5 := count_zero_of_coreRank_ne (Callback.drawCb x) hE1 (by simp [coreRank])
      have z6 := count_zero_of_coreRank_none (Callback.drawCb x) hGn (by simp [coreRank])
      have z7 := count_zero_of_coreRank_none (Callback.drawCb x) hHn (by simp [coreRank])
      have z8 := count_zero_of_coreRank_ne (Callback.drawCb x) hJ3 (by simp [coreRank])
      have hus : (Callback.userSignals == Callback.drawCb x) = false := by simp
      simp only [List.count_append, List.count_cons, hus, Bool.false_eq_true, if_false]
      omega
    · have z1 := count_zero_of_coreRank_none (Callback.closeCb x) hAn (by simp [coreRank])
      have z2 := count_zero_of_coreRank_none (Callback.closeCb x) hBn (by simp [coreRank])
      have z3 := count_zero_of_coreRank_none (Callback.closeCb x) hCn (by simp [coreRank])
      have z4 := count_zero_of_coreRank_ne (Callback.closeCb x) hD0 (by simp [coreRank])
      have z5 := count_zero_of_coreRank_ne (Callback.closeCb x) hE1 (by simp [coreRank])
      have z6 := count_zero_of_coreRank_none (Callback.closeCb x) hGn (by simp [coreRank])
      have z7 := count_zero_of_coreRank_none (Callback.closeCb x) hHn (by simp [coreRank])
      have z8 := count_zero_of_coreRank_ne (Callback.closeCb x) hI2 (by simp [coreRank])
      have hus : (Callback.userSignals == Callback.closeCb x) = false := by simp
      simp only [List.count_append, List.count_cons, hus, Bool.false_eq_true, if_false]
      omega

/-- Inputs for the C1 witness: two windows, window 1 rescale-pending, window 2
close-pending. -/
def c1TickState : TickState :=
  { windows := [1, 2], screenlocks := [], new_windows := [], new_screenlock := [],
    rescale_request := [1], resize_request := [], redraw_request := [], close_request := [2],
    user_events := 0, accesskit_events := [], events := [], keyboard_focus := none }

def c1TickTrace : List Callback :=
  [Callback.rescaleCb 1, Callback.resizeCb 1, Callback.userSignals, Callback.drawCb 1,
   Callback.closeCb 2]

def c1TickAfter : TickState :=
  { windows := [1], screenlocks := [], new_windows := [], new_screenlock := [],
    rescale_request := [], resize_request := [], redraw_request := [], close_request := [],
    user_events := 0, accesskit_events := [], events := [], keyboard_focus := none }

/-- Witness for C1: on the concrete tick the rescale-pending window 1 receives
both a resize and a redraw. -/
theorem tick_order_fold_dedup_witness :
    Callback.resizeCb 1 ∈ c1TickTrace ∧ Callback.drawCb 1 ∈ c1TickTrace :=
  (tick_order_fold_dedup c1TickState c1TickTrace c1TickAfter (by decide) (by decide)
    (by decide) (by decide) (by rfl)).2.1 1 (by decide) (by decide)

/-! ### C7 — stale identities: soft for rescale/resize/redraw, but close panics -/

/-- A tick with a single stale close-pending identity (the windows map is
empty).  `remove_screenlock` produces exactly this situation: it inserts a
lock-surface id into `close_request` although that id is never in the windows
map. -/
def c7staleState : TickState :=
  { windows := [], screenlocks := [], new_windows := [], new_screenlock := [],
    rescale_request := [], resize_request := [], redraw_request := [], close_request := [5],
    user_events := 0, accesskit_events := [], events := [], keyboard_focus := none }

/-- Counterexample to C7: a stale identity in the close pending set does not
fail softly — `WindowsRegistry::remove_window` panics, aborting the tick. -/
theorem stale_close_panics :
    tick c7staleState = Except.error PanicKind.removeWindowMissing := rfl

/-- C7 as amended: a stale identity (present in neither the windows map nor
the screenlocks map) drained from the rescale, resize or redraw pending set is
silently skipped — the tick delivers no rescale, resize, redraw (or close)
callback for it; a stale identity in the close set, by contrast, panics
(`stale_close_panics`). -/
theorem tick_skips_stale (st : TickState) (tr : List Callback) (st2 : TickState) (x : WindowId)
    (hw : x ∉ st.windows) (hl : lookupKey st.screenlocks x = none)
    (hok : tick st = Except.ok (tr, st2)) :
    Callback.rescaleCb x ∉ tr ∧ Callback.resizeCb x ∉ tr
    ∧ Callback.drawCb x ∉ tr ∧ Callback.closeCb x ∉ tr := by
  obtain ⟨trLock, pResize, pClose, hlock, hres, hclose, htr⟩ := tick_ok_inversion st tr st2 hok
  subst htr
  refine ⟨?_, ?_, ?_, ?_⟩
  · intro hmem
    simp only [List.mem_append, List.mem_cons] at hmem
    rcases hmem with ((((h | h) | h) | h) | h) | h | ((h | h) | h) | h
    · obtain ⟨i, _, hi⟩ := List.mem_map.mp h
      exact Callback.noConfusion hi
    · obtain ⟨y, hy⟩ := drainNewScreenlock_mem st.new_screenlock trLock hlock _ h
      exact Callback.noConfusion hy
    · exact Callback.noConfusion (List.eq_of_mem_replicate h)
    · obtain ⟨y, hy, hyw, _⟩ := drainRescale_mem st.windows st.rescale_request _ _ h
      exact hw ((Callback.rescaleCb.inj hy) ▸ hyw)
    · obtain ⟨y, hy, _⟩ := drainResize_mem st.windows st.screenlocks _ _ pResize hres _ h
      exact Callback.noConfusion hy
    · exact Callback.noConfusion h
    · have := drainAccesskit_mem st.windows st.accesskit_events _ h
      simp [coreRank] at this
    · have := drainEvents_mem st.keyboard_focus st.events [] _ h
      simp [coreRank] at this
    · obtain ⟨y, hy, _⟩ := drainRedraw_mem st.windows pResize.2 _ h
      exact Callback.noConfusion hy
    · obtain ⟨y, hy, _⟩ := drainClose_mem st.close_request st.windows pClose hclose _ h
      exact Callback.noConfusion hy
  · intro hmem
    simp only [List.mem_append, List.mem_cons] at hmem
    rcases hmem with ((((h | h) | h) | h) | h) | h | ((h | h) | h) | h
    · obtain ⟨i, _, hi⟩ := List.mem_map.mp h
      exact Callback.noConfusion hi
    · obtain ⟨y, hy⟩ := drainNewScreenlock_mem st.new_screenlock trLock hlock _ h
      exact Callback.noConfusion hy
    · exact Callback.noConfusion (List.eq_of_mem_replicate h)
    · obtain ⟨y, hy, _, _⟩ := drainRescale_mem st.windows st.rescale_request _ _ h
      exact Callback.noConfusion hy
    · obtain ⟨y, hy, hreg⟩ := drainResize_mem st.windows st.screenlocks _ _ pResize hres _ h
      have hxy : x = y := Callback.resizeCb.inj hy
      rcases hreg with hreg | hreg
      · exact hw (hxy ▸ hreg)
      · exact hreg (hxy ▸ hl)
    · exact Callback.noConfusion h
    · have := drainAccesskit_mem st.windows st.accesskit_events _ h
      simp [coreRank] at this
    · have := drainEvents_mem st.keyboard_focus st.events [] _ h
      simp [coreRank] at this
    · obtain ⟨y, hy, _⟩ := drainRedraw_mem st.windows pResize.2 _ h
      exact Callback.noConfusion hy
    · obtain ⟨y, hy, _⟩ := drainClose_mem st.close_request st.windows pClose hclose _ h
      exact Callback.noConfusion hy
  · intro hmem
    simp only [List.mem_append, List.mem_cons] at hmem
    rcases hmem with ((((h | h) | h) | h) | h) | h | ((h | h) | h) | h
    · obtain ⟨i, _, hi⟩ := List.mem_map.mp h
      exact Callback.noConfusion hi
    · obtain ⟨y, hy⟩ := drainNewScreenlock_mem st.new_screenlock trLock hlock _ h
      exact Callback.noConfusion hy
    · exact Callback.noConfusion (List.eq_of_mem_replicate h)
    · obtain ⟨y, hy, _, _⟩ := drainRescale_mem st.windows st.rescale_request _ _ h
      exact Callback.noConfusion hy
    · obtain ⟨y, hy, _⟩ := drainResize_mem st.windows st.screenlocks _ _ pResize hres _ h
      exact Callback.noConfusion hy
    · exact Callback.noConfusion h
    · have := drainAccesskit_mem st.windows st.accesskit_events _ h
      simp [coreRank] at this
    · have := drainEvents_mem st.keyboard_focus st.events [] _ h
      simp [coreRank] at this
    · obtain ⟨y, hy, hyw⟩ := drainRedraw_mem st.windows pResize.2 _ h
      exact hw ((Callback.drawCb.inj hy) ▸ hyw)
    · obtain ⟨y, hy, _⟩ := drainClose_mem st.close_request st.windows pClose hclose _ h
      exact Callback.noConfusion hy
  · intro hmem
    simp only [List.mem_append, List.mem_cons] at hmem
    rcases hmem with ((((h | h) | h) | h) | h) | h | ((h | h) | h) | h
    · obtain ⟨i, _, hi⟩ := List.mem_map.mp h
      exact Callback.noConfusion hi
    · obtain ⟨y, hy⟩ := drainNewScreenlock_mem st.new_screenlock trLock hlock _ h
      exact Callback.noConfusion hy
    · exact Callback.noConfusion (List.eq_of_mem_replicate h)
    · obtain ⟨y, hy, _, _⟩ := drainRescale_mem st.windows st.rescale_request _ _ h
      exact Callback.noConfusion hy
    · obtain ⟨y, hy, _⟩ := drainResize_mem st.windows st.screenlocks _ _ pResize hres _ h
      exact Callback.noConfusion hy
    · exact Callback.noConfusion h
    · have := drainAccesskit_mem st.windows st.accesskit_events _ h
      simp [coreRank] at this
    · have := drainEvents_mem st.keyboard_focus st.events [] _ h
      simp [coreRank] at this
    · obtain ⟨y, hy, _⟩ := drainRedraw_mem st.windows pResize.2 _ h
      exact Callback.noConfusion hy
    · obtain ⟨y, hy, hyw⟩ := drainClose_mem st.close_request st.windows pClose hclose _ h
      exact hw ((Callback.closeCb.inj hy) ▸ hyw)

/-- Inputs for the C7 witness: the stale identity 5 sits in the rescale,
resize and redraw pending sets while only window 1 is registered. -/
def c7okState : TickState :=
  { windows := [1], screenlocks := [], new_windows := [], new_screenlock := [],
    rescale_request := [5], resize_request := [5], redraw_request := [5], close_request := [],
    user_events := 0, accesskit_events := [], events := [], keyboard_focus := none }

def c7okTrace : List Callback := [Callback.userSignals]

def c7okAfter : TickState :=
  { windows := [1], screenlocks := [], new_windows := [], new_screenlock := [],
    rescale_request := [], resize_request := [], redraw_request := [], close_request := [],
    user_events := 0, accesskit_events := [], events := [], keyboard_focus := none }

/-- Witness for the amended C7: the concrete tick succeeds and delivers no
callback at all for the stale identity 5. -/
theorem tick_skips_stale_witness :
    Callback.rescaleCb 5 ∉ c7okTrace ∧ Callback.resizeCb 5 ∉ c7okTrace
    ∧ Callback.drawCb 5 ∉ c7okTrace ∧ Callback.closeCb 5 ∉ c7okTrace :=
  tick_skips_stale c7okState c7okTrace c7okAfter 5 (by decide) (by rfl) (by rfl)

/-! ### C8 — exit conditions of `WlEventLoop::run` -/

/-- A schedule entry after which the loop keeps running: dispatch succeeded,
the tick succeeded, and at the boundary the registry was non-empty and the
stop flag unset. -/
def tickContinues (x : Option (TickState × Bool)) : Prop :=
  ∃ st flag tr st2, x = some (st, flag) ∧ tick st = Except.ok (tr, st2)
    ∧ (registryIsEmpty st2 || !flag) = false

/-- A schedule entry at which the loop stops successfully: dispatch and tick
succeeded and, at the boundary, the registry became empty or the stop flag was
observed. -/
def tickStops (x : Option (TickState × Bool)) : Prop :=
  ∃ st flag tr st2, x = some (st, flag) ∧ tick st = Except.ok (tr, st2)
    ∧ (registryIsEmpty st2 || !flag) = true

/-- The spec's success condition, spelled from its words: some iteration stops
successfully — registry empty after the tick, or stop flag observed at the
tick boundary — and every earlier iteration kept the loop running. -/
def specSuccess (ins : List (Option (TickState × Bool))) : Prop :=
  ∃ i, (∀ j, j < i → ∃ x, ins.get? j = some x ∧ tickContinues x)
    ∧ ∃ x, ins.get? i = some x ∧ tickStops x

/-- The spec's fatal condition: some iteration's transport dispatch reports an
error, every earlier iteration kept the loop running. -/
def specFatal (ins : List (Option (TickState × Bool))) : Prop :=
  ∃ i, (∀ j, j < i → ∃ x, ins.get? j = some x ∧ tickContinues x)
    ∧ ins.get? i = some none

lemma specSuccess_nil : ¬ specSuccess [] := by
  rintro ⟨i, _, y, hy, _⟩
  simp at hy

lemma specFatal_nil : ¬ specFatal [] := by
  rintro ⟨i, _, hy⟩
  simp at hy

lemma not_tickStops_none : ¬ tickStops none := by
  rintro ⟨st, flag, tr, st2, h, _⟩
  exact Option.noConfusion h

lemma not_tickContinues_none : ¬ tickContinues none := by
  rintro ⟨st, flag, tr, st2, h, _⟩
  exact Option.noConfusion h

lemma not_tickStops_of_error {st : TickState} {flag : Bool} {e : PanicKind}
    (htick : tick st = Except.error e) : ¬ tickStops (some (st, flag)) := by
  rintro ⟨st', flag', tr, st2, heq, hok, _⟩
  injection heq with heq
  cases heq
  rw [htick] at hok
  exact Except.noConfusion hok

lemma not_tickContinues_of_error {st : TickState} {flag : Bool} {e : PanicKind}
    (htick : tick st = Except.error e) : ¬ tickContinues (some (st, flag)) := by
  rintro ⟨st', flag', tr, st2, heq, hok, _⟩
  injection heq with heq
  cases heq
  rw [htick] at hok
  exact Except.noConfusion hok

lemma tickStops_iff {st : TickState} {flag : Bool} {tr : List Callback} {st2 : TickState}
    (htick : tick st = Except.ok (tr, st2)) :
    tickStops (some (st, flag)) ↔ (registryIsEmpty st2 || !flag) = true := by
  constructor
  · rintro ⟨st', flag', tr', st2', heq, hok, hc⟩
    injection heq with heq
    cases heq
    rw [htick] at hok
    injection hok with hok
    cases hok
    exact hc
  · intro hc
    exact ⟨st, flag, tr, st2, rfl, htick, hc⟩

lemma tickContinues_iff {st : TickState} {flag : Bool} {tr : List Callback} {st2 : TickState}
    (htick : tick st = Except.ok (tr, st2)) :
    tickContinues (some (st, flag)) ↔ (registryIsEmpty st2 || !flag) = false := by
  constructor
  · rintro ⟨st', flag', tr', st2', heq, hok, hc⟩
    injection heq with heq
    cases heq
    rw [htick] at hok
    injection hok with hok
    cases hok
    exact hc
  · intro hc
    exact ⟨st, flag, tr, st2, rfl, htick, hc⟩

lemma specSuccess_cons (x : Option (TickState × Bool)) (rest : List (Option (TickState × Bool))) :
    specSuccess (x :: rest) ↔ tickStops x ∨ (tickContinues x ∧ specSuccess rest) := by
  constructor
  · rintro ⟨i, hcont, y, hy, hstop⟩
    cases i with
    | zero =>
      left
      rw [List.get?_cons_zero] at hy
      injection hy with hy
      subst hy
      exact hstop
    | succ k =>
      right
      obtain ⟨x0, hx0, hcx⟩ := hcont 0 (Nat.succ_pos k)
      rw [List.get?_cons_zero] at hx0
      injection hx0 with hx0
      subst hx0
      refine ⟨hcx, k, ?_, y, ?_, hstop⟩
      · intro j hj
        obtain ⟨z, hz, hcz⟩ := hcont (j + 1) (Nat.succ_lt_succ hj)
        rw [List.get?_cons_succ] at hz
        exact ⟨z, hz, hcz⟩
      · rw [List.get?_cons_succ] at hy
        exact hy
  · rintro (hstop | ⟨hcx, i, hcont, y, hy, hstop⟩)
    · exact ⟨0, fun j hj => absurd hj (Nat.not_lt_zero j), x, rfl, hstop⟩
    · refine ⟨i + 1, ?_, y, ?_, hstop⟩
      · intro j hj
        cases j with
        | zero => exact ⟨x, rfl, hcx⟩
        | succ m =>
          obtain ⟨z, hz, hcz⟩ := hcont m (Nat.lt_of_succ_lt_succ hj)
          refine ⟨z, ?_, hcz⟩
          rw [List.get?_cons_succ]
          exact hz
      · rw [List.get?_cons_succ]
        exact hy

lemma specFatal_cons (x : Option (TickState × Bool)) (rest : List (Option (TickState × Bool))) :
    specFatal (x :: rest) ↔ x = none ∨ (tickContinues x ∧ specFatal rest) := by
  constructor
  · rintro ⟨i, hcont, hy⟩
    cases i with
    | zero =>
      left
      rw [List.get?_cons_zero] at hy
      exact Option.some.inj hy
    | succ k =>
      right
      obtain ⟨x0, hx0, hcx⟩ := hcont 0 (Nat.succ_pos k)
      rw [List.get?_cons_zero] at hx0
      injection hx0 with hx0
      subst hx0
      refine ⟨hcx, k, ?_, ?_⟩
      · intro j hj
        obtain ⟨z, hz, hcz⟩ := hcont (j + 1) (Nat.succ_lt_succ hj)
        rw [List.get?_cons_succ] at hz
        exact ⟨z, hz, hcz⟩
      · rw [List.get?_cons_succ] at hy
        exact hy
  · rintro (hnone | ⟨hcx, i, hcont, hy⟩)
    · subst hnone
      exact ⟨0, fun j hj => absurd hj (Nat.not_lt_zero j), rfl⟩
    · refine ⟨i + 1, ?_, ?_⟩
      · intro j hj
        cases j with
        | zero => exact ⟨x, rfl, hcx⟩
        | succ m =>
          obtain ⟨z, hz, hcz⟩ := hcont m (Nat.lt_of_succ_lt_succ hj)
          refine ⟨z, ?_, hcz⟩
          rw [List.get?_cons_succ]
          exact hz
      · rw [List.get?_cons_succ]
        exact hy

/-- C8: the run loop returns success exactly when the windows registry
(windows and lock surfaces) is empty after a tick or the stop flag has been
observed at a tick boundary — with all earlier iterations continuing — and it
returns the dispatch-error result exactly when the underlying transport
dispatch call reports an error. -/
theorem run_exit_conditions (ins : List (Option (TickState × Bool))) :
    (runLoop ins = RunResult.success ↔ specSuccess ins)
    ∧ (runLoop ins = RunResult.dispatchError ↔ specFatal ins) := by
  induction ins with
  | nil =>
    constructor
    · constructor
      · intro h
        exact absurd h (by simp [runLoop])
      · intro h
        exact absurd h specSuccess_nil
    · constructor
      · intro h
        exact absurd h (by simp [runLoop])
      · intro h
        exact absurd h specFatal_nil
  | cons x rest ih =>
    obtain ⟨ih1, ih2⟩ := ih
    rw [specSuccess_cons, specFatal_cons]
    cases x with
    | none =>
      constructor
      · constructor
        · intro h
          simp [runLoop] at h
        · rintro (hstop | ⟨hc, _⟩)
          · exact absurd hstop not_tickStops_none
          · exact absurd hc not_tickContinues_none
      · constructor
        · intro _
          exact Or.inl rfl
        · intro _
          simp [runLoop]
    | some p =>
      obtain ⟨st, flag⟩ := p
      simp only [runLoop]
      cases htick : tick st with
      | error e =>
        dsimp only
        constructor
        · constructor
          · intro h
            exact RunResult.noConfusion h
          · rintro (hstop | ⟨hc, _⟩)
            · exact absurd hstop (not_tickStops_of_error htick)
            · exact absurd hc (not_tickContinues_of_error htick)
        · constructor
          · intro h
            exact RunResult.noConfusion h
          · rintro (hnone | ⟨hc, _⟩)
            · exact Option.noConfusion hnone
            · exact absurd hc (not_tickContinues_of_error htick)
      | ok p2 =>
        obtain ⟨tr, st2⟩ := p2
        dsimp only
        by_cases hcond : (registryIsEmpty st2 || !flag) = true
        · rw [if_pos hcond]
          constructor
          · constructor
            · intro _
              exact Or.inl ((tickStops_iff htick).mpr hcond)
            · intro _
              rfl
          · constructor
            · intro h
              exact RunResult.noConfusion h
            · rintro (hnone | ⟨hc, _⟩)
              · exact Option.noConfusion hnone
              · have := (tickContinues_iff htick).mp hc
                rw [hcond] at this
                exact Bool.noConfusion this
        · rw [if_neg hcond]
          have hcond2 : (registryIsEmpty st2 || !flag) = false := by
            cases h : (registryIsEmpty st2 || !flag)
            · rfl
            · exact absurd h hcond
          constructor
          · constructor
            · intro h
              exact Or.inr ⟨(tickContinues_iff htick).mpr hcond2, ih1.mp h⟩
            · rintro (hstop | ⟨_, h⟩)
              · exact absurd ((tickStops_iff htick).mp hstop) hcond
              · exact ih1.mpr h
          · constructor
            · intro h
              exact Or.inr ⟨(tickContinues_iff htick).mpr hcond2, ih2.mp h⟩
            · rintro (hnone | ⟨_, h⟩)
              · exact Option.noConfusion hnone
              · exact ih2.mpr h

end SmithayWinit
